import Mathlib

/-!
Verification of the dynamic-legend inference engine of the
azure-maps-layer-legend module (src/helpers/DynamicLegend.ts, with helpers
from src/helpers/Utils.ts), as a shallow embedding in Lean 4.

Modelling conventions:
* JavaScript values that flow through the style expressions are the inductive
  type `Val` (string, number, array, undefined).  JS numbers (IEEE float64)
  are modelled as exact rationals; float64 values are a subset of the
  rationals, and the expressions the engine handles are small exact
  computations.  NaN and infinities are outside the model; each spot where the
  source could produce a NaN (arithmetic on a non-number) is marked with a
  comment at the corresponding `Val.toNumD` conversion.
* Host primitives that the engine merely calls through to (the float
  `Math.pow`, locale-dependent `Number.prototype.toLocaleString`, default
  number-to-string coercion, and the Azure Maps `getImageTemplate` icon
  builder) are fields of a `Host` parameter.
* JS exceptions are `Except JsError`.  Functions that the source cannot make
  throw are plain `Option`-valued.
-/

namespace LayerLegend

/-- A JavaScript value as it appears in a style expression: a string, a
number (exact rational), a nested array, or `undefined`. -/
inductive Val where
  | str (s : String)
  | num (q : ℚ)
  | arr (elems : List Val)
  | undef

/-- Read a value as a number, with a default for non-numbers.  In the source a
non-number flowing into arithmetic would produce the float NaN; the default is
only ever relevant in those degenerate NaN situations. -/
def Val.toNumD (v : Val) (d : ℚ) : ℚ :=
  match v with
  | .num q => q
  | _ => d

/-- Index into a JS value as an array: `v[i]`, which is `undefined` when `v`
is not an array or `i` is out of range. -/
def jsIndex (v : Val) (i : ℕ) : Val :=
  match v with
  | .arr l => l.getD i .undef
  | _ => (.undef)

/-- Index into a JS array: `l[i]`, `undefined` out of range. -/
def jsGet (l : List Val) (i : ℕ) : Val := l.getD i (.undef)

/-- Split a flat tail of an expression into (input, output) pairs, the way the
source walks it with `for (i; i < len; i += 2)` reading `exp[i]` and
`exp[i + 1]`. -/
def pairList : List Val → List (Val × Val)
  | t :: o :: rest => (t, o) :: pairList rest
  | _ => []

/-- JS truthiness of an optional string: `undefined` and the empty string are
falsy. -/
def strFalsy (o : Option String) : Bool :=
  match o with
  | none => true
  | some s => s = ""

/-- JS `a || b` on an optional string and a string fallback. -/
def strOr (a : Option String) (b : String) : String :=
  match a with
  | some s => if s = "" then b else s
  | none => b

/-- JS `a || b` on two optional strings (empty string is falsy). -/
def jsOrOpt (a b : Option String) : Option String :=
  match a with
  | some s => if s = "" then b else some s
  | none => b

/-- Host primitives the engine calls but does not implement: float
exponentiation, locale-dependent number formatting, default number-to-string
coercion, and the Azure Maps icon-template builder
(`getImageTemplate(template, 1)` with its color substitutions applied). -/
structure Host where
  pow : ℚ → ℚ → ℚ
  toLocaleString : Option Val → Option Val → ℚ → String
  numToString : ℚ → String
  builtinImage : String → String → String

mutual

/-- JS string coercion of a value, used when a non-string is used as a lookup
key.  An undefined element of an array coerces to the empty string. -/
def Val.coerceString (host : Host) : Val → String
  | .str s => s
  | .num q => host.numToString q
  | .undef => ""
  | .arr l => String.intercalate "," (coerceList host l)

/-- String coercion of each element of a JS array. -/
def coerceList (host : Host) : List Val → List String
  | [] => []
  | v :: vs => Val.coerceString host v :: coerceList host vs

end

namespace Utils

/-- Utils.getString: a number is formatted with `toLocaleString`; a non-empty
string is first looked up in the localization resource `resx` (an empty or
missing entry falls back to the string itself); `undefined` and the empty
string give the empty string.  A value of any other type reaches the resource
lookup via its JS string coercion. -/
def getString (host : Host) (resx : String → Option String)
    (locales numberFormat : Option Val) (v : Val) : String :=
  match v with
  | .undef => ""
  | .num q => host.toLocaleString locales numberFormat q
  | .str s =>
      if s = "" then ""
      else
        match resx s with
        | some r => if r = "" then s else r
        | none => s
  | .arr l =>
      let k := Val.coerceString host (.arr l)
      match resx k with
      | some r => if r = "" then k else r
      | none => k

/-- Take the leading run of decimal digits of a reversed character list,
returning the run (least significant digit first) and the remainder. -/
def takeDigitsRev : List Char → List Char × List Char
  | [] => ([], [])
  | c :: cs =>
    if c.isDigit then
      let p := takeDigitsRev cs
      (c :: p.1, p.2)
    else ([], c :: cs)

/-- Numeric value of a digit run given least significant digit first. -/
def revDigitsToNat : List Char → ℕ
  | [] => 0
  | c :: cs => (c.toNat - 48) + 10 * revDigitsToNat cs

/-- Utils.decimalPlaces on the decimal string of a number: the number of
digits right of the decimal point, reduced by a trailing scientific-notation
exponent, never negative.  The source matches a regular expression of an
optional fraction group then an optional signed exponent group anchored at
the end of the string; operationally, on the strings JS numbers print to,
that is the trailing exponent group and then the rightmost run of digits
preceded by a dot and running up to the end of the mantissa. -/
def decimalPlacesStr (s : String) : ℕ :=
  let rev := s.data.reverse
  let ed := takeDigitsRev rev
  let em : Option (Int × List Char) :=
    if ed.1 = [] then none
    else
      match ed.2 with
      | '-' :: 'e' :: r => some (-(revDigitsToNat ed.1 : Int), r)
      | '-' :: 'E' :: r => some (-(revDigitsToNat ed.1 : Int), r)
      | '+' :: 'e' :: r => some ((revDigitsToNat ed.1 : Int), r)
      | '+' :: 'E' :: r => some ((revDigitsToNat ed.1 : Int), r)
      | 'e' :: r => some ((revDigitsToNat ed.1 : Int), r)
      | 'E' :: r => some ((revDigitsToNat ed.1 : Int), r)
      | _ => none
  let mantissa : Int × List Char :=
    match em with
    | some p => p
    | none => (0, rev)
  let fd := takeDigitsRev mantissa.2
  let frac : ℕ :=
    match fd.2 with
    | '.' :: _ => if fd.1 = [] then 0 else fd.1.length
    | _ => 0
  ((frac : Int) - mantissa.1).toNat

/-- Utils.decimalPlaces of a number: the source stringifies the number with
the default JS coercion and inspects the decimal string. -/
def decimalPlaces (host : Host) (q : ℚ) : ℕ :=
  decimalPlacesStr (host.numToString q)

/-- Utils.round: multiply by `10 ^ decimals`, `Math.round` (half toward plus
infinity), divide back.  `Math.pow(10, d)` is exact for the small natural
`d` used here, so it is modelled as `10 ^ d`. -/
def round (q : ℚ) (decimals : ℕ) : ℚ :=
  let factorOfTen : ℚ := 10 ^ decimals
  ((⌊q * factorOfTen + 1 / 2⌋ : ℤ) : ℚ) / factorOfTen

end Utils

/-- The kind of style property being parsed: the `type` argument
`color | scale | image` threaded through the parsers. -/
inductive StyleType where
  | color
  | scale
  | image
  deriving DecidableEq

/-- One item of a category legend (the fields the engine reads or writes). -/
structure CategoryLegendItem where
  color : Option String := none
  label : Option Val := none
  shape : Option String := none
  shapeSize : Option ℚ := none

/-- One color stop of a gradient legend. -/
structure ColorStop where
  offset : ℚ
  color : String
  label : Option Val := none

/-- A category legend as produced by the engine. -/
structure CategoryLegend where
  items : List CategoryLegendItem := []
  layout : Option String := none
  itemLayout : Option String := none
  color : Option String := none
  shape : Option String := none
  shapeSize : Option ℚ := none
  fitItems : Option Bool := none
  strokeWidth : Option ℚ := none
  labelsOverlapShapes : Option Bool := none
  numberFormat : Option Val := none
  numberFormatLocales : Option Val := none
  collapse : Option Bool := none
  subtitle : Option String := none
  footer : Option String := none
  minZoom : Option ℚ := none
  maxZoom : Option ℚ := none
  cssClass : Option String := none

/-- A gradient legend as produced by the engine. -/
structure GradientLegend where
  stops : List ColorStop := []
  orientation : Option String := none
  tickSize : Option ℚ := none
  barLength : Option ℚ := none
  barThickness : Option ℚ := none
  fontSize : Option ℚ := none
  fontFamily : Option String := none
  numberFormat : Option Val := none
  numberFormatLocales : Option Val := none
  subtitle : Option String := none
  footer : Option String := none
  minZoom : Option ℚ := none
  maxZoom : Option ℚ := none
  cssClass : Option String := none

/-- A legend descriptor produced by expression parsing: the parsers emit only
category and gradient legends (image legends come from the OGC layer path,
which performs no expression parsing). -/
inductive Legend where
  | category (c : CategoryLegend)
  | gradient (g : GradientLegend)

/-- The CategoryDefaults record of a dynamic legend type; a `some` field is an
own property that `Object.assign` copies onto the produced legend. -/
structure CategoryDefaults where
  layout : Option String := none
  itemLayout : Option String := none
  color : Option String := none
  shape : Option String := none
  shapeSize : Option ℚ := none
  fitItems : Option Bool := none
  strokeWidth : Option ℚ := none
  labelsOverlapShapes : Option Bool := none
  numberFormat : Option Val := none
  numberFormatLocales : Option Val := none
  cssClass : Option String := none

/-- The GradientDefaults record of a dynamic legend type. -/
structure GradientDefaults where
  orientation : Option String := none
  tickSize : Option ℚ := none
  barLength : Option ℚ := none
  barThickness : Option ℚ := none
  fontSize : Option ℚ := none
  fontFamily : Option String := none
  numberFormat : Option Val := none
  numberFormatLocales : Option Val := none

/-- The DynamicLegendType settings the engine reads. -/
structure DynamicLegendType where
  subtitle : Option String := none
  footer : Option String := none
  cssClass : Option String := none
  defaultCategory : Option CategoryDefaults := none
  defaultGradient : Option GradientDefaults := none
  subtitleFallback : Option String := none
  footerFallback : Option String := none

/-- The map capabilities consulted when resolving an image name: the user
image sprite (a name resolves to an image source when registered). -/
structure MapModel where
  userImages : String → Option String

/-- The parts of the legend control the engine reads: the localization
resource of its options and the attached map. -/
structure LegendControl where
  resx : String → Option String := fun _ => none
  map : Option MapModel := none

/-- The supported layer kinds of the dynamic-legend router that are driven by
style expressions.  The symbol, OGC and simple-data branches of the router
are tied to host capabilities (icon sprite scaling, remote capabilities) and
are outside this embedding. -/
inductive LayerKind where
  | bubble
  | line
  | polygon
  | polygonExtrusion
  | heatMap
  deriving DecidableEq

/-- The style options of a layer that the router examines.  A `some` value is
a property present on the options object. -/
structure LayerOptions where
  visible : Bool := true
  color : Option Val := none
  radius : Option Val := none
  strokeColor : Option Val := none
  strokeWidth : Option Val := none
  strokeGradient : Option Val := none
  fillColor : Option Val := none
  fillPattern : Option Val := none
  minZoom : Option ℚ := none
  maxZoom : Option ℚ := none

/-- Dynamic property access `opt[property]` on the style options. -/
def LayerOptions.getProp (o : LayerOptions) : String → Val
  | "color" => o.color.getD .undef
  | "radius" => o.radius.getD .undef
  | "strokeColor" => o.strokeColor.getD .undef
  | "strokeWidth" => o.strokeWidth.getD .undef
  | "strokeGradient" => o.strokeGradient.getD .undef
  | "fillColor" => o.fillColor.getD .undef
  | "fillPattern" => o.fillPattern.getD .undef
  | _ => (.undef)

/-- A map layer: its kind, style options, metadata record and identifier. -/
structure Layer where
  kind : LayerKind
  options : LayerOptions := {}
  metadata : String → Option String := fun _ => none
  id : String := ""

/-- A JavaScript runtime exception (the engine can only raise TypeError). -/
inductive JsError where
  | typeError
  deriving DecidableEq

namespace DynamicLegend

/-- DynamicLegend parseInputGetter: extract the property name from a simple
getter expression `["get", name]`. -/
def parseInputGetter (input : Val) : Option String :=
  match input with
  | .arr (.str "get" :: .str prop :: _) => some prop
  | _ => none

/-- DynamicLegend getSubtitle: resolve the subtitle from the fallback method,
the layer metadata, the expression input getter, or the layer id. -/
def getSubtitle (methodOpt : Option String) (exp : Val) (lyr : Layer) :
    Option String :=
  let method := strOr methodOpt "auto"
  if method = "none" then none
  else if method = "auto" then
    some (strOr (lyr.metadata "title") (strOr (lyr.metadata "subtitle") lyr.id))
  else if method = "expression" then
    some (strOr (parseInputGetter exp) lyr.id)
  else
    some (strOr (lyr.metadata method) "")

/-- DynamicLegend getFooter: resolve the footer from the fallback method and
the layer metadata. -/
def getFooter (methodOpt : Option String) (lyr : Layer) : Option String :=
  let method := strOr methodOpt "auto"
  if method = "auto" then
    some (strOr (lyr.metadata "footer")
      (strOr (lyr.metadata "description") (strOr (lyr.metadata "abstract") "")))
  else if method = "none" then none
  else some (strOr (lyr.metadata method) "")

/-- Replace the first occurrence of a pattern in a string, matching the JS
`String.prototype.replace` with a string pattern. -/
def replaceFirst (s pat rep : String) : String :=
  match s.splitOn pat with
  | [] => s
  | [_] => s
  | h :: t => h ++ rep ++ String.intercalate pat t

/-- The fixed palette of named colors accepted for built-in icon templates. -/
def defaultColors : String → Option String
  | "black" => some "#231f20"
  | "blue" => some "#1a73aa"
  | "darkblue" => some "#003963"
  | "red" => some "#ef4c4c"
  | "yellow" => some "#f2c851"
  | _ => none

/-- DynamicLegend getImage: resolve an image name to an image source, first
through the user image sprite, then through the built-in marker and pin
templates combined with a named palette color. -/
def getImage (host : Host) (m : MapModel) (imgName : String) : Option String :=
  if imgName = "none" then none
  else
    match m.userImages imgName with
    | some src => some src
    | none =>
      let tc : Option (String × String) :=
        if imgName.startsWith "marker" then
          some ("marker", replaceFirst imgName "marker-" "")
        else if imgName.startsWith "pin-round" then
          some ("pin-round", replaceFirst imgName "pin-round-" "")
        else if imgName.startsWith "pin" then
          some ("pin", replaceFirst imgName "pin-" "")
        else none
      match tc with
      | some (template, colorName) =>
        match defaultColors colorName with
        | some colorHex => some (host.builtinImage template colorHex)
        | none => none
      | none => none

/-- DynamicLegend getValue: normalize a raw output value for the property
kind.  Color accepts a string; scale accepts a number with the exact zero
remapped to `0.01`; image accepts a string that resolves through the image
registry of an attached map.  Everything else is unrecognized. -/
def getValue (host : Host) (ctl : LegendControl) (v : Val) (ty : StyleType) :
    Option CategoryLegendItem :=
  match ty, v with
  | .color, .str s => some { color := some s }
  | .scale, .num q => some { shapeSize := some (if q = 0 then 1 / 100 else q) }
  | .image, .str s =>
      match ctl.map with
      | some m => (getImage host m s).map fun src => { shape := some src }
      | none => none
  | _, _ => none

/-- DynamicLegend getInterpFn: build the offset function for an interpolation
expression over the data range.  A zero-width range short-circuits to the
constant zero function before the method is even inspected; otherwise linear
and exponential methods are supported and any other method yields no
function.  A non-numeric exponential base would flow NaN through `Math.pow`
in the source; it reaches `Host.pow` through `Val.toNumD` here. -/
def getInterpFn (host : Host) (interpExp : Val) (minValue maxValue : ℚ) :
    Option (ℚ → ℚ) :=
  let difference := maxValue - minValue
  if difference = 0 then
    some fun _ => 0
  else
    match jsIndex interpExp 0 with
    | .str t =>
      if t = "linear" then some fun x => (x - minValue) / difference
      else if t = "exponential" then
        let base := (jsIndex interpExp 1).toNumD 0
        some fun x =>
          (host.pow base (x - minValue) - 1) / (host.pow base difference - 1)
      else none
    | _ => none

/-- DynamicLegend overrideCategoryValue: on a category legend whose named
property is absent or empty, set it; gradients and already-set properties are
left alone.  The source indexes the legend dynamically; only the color and
shape properties are ever overridden. -/
def overrideCategoryValue (l : Option Legend) (property value : String) :
    Option Legend :=
  match l with
  | some (.category c) =>
      if property = "color" then
        if strFalsy c.color then some (.category { c with color := some value })
        else l
      else if property = "shape" then
        if strFalsy c.shape then some (.category { c with shape := some value })
        else l
      else l
  | _ => l

/-- The label formatter of the step parser: getString over the legend control
resources with the number format options of the category defaults of the
dynamic legend settings. -/
def stepLabel (host : Host) (ctl : LegendControl) (dlt : DynamicLegendType)
    (v : Val) : String :=
  Utils.getString host ctl.resx
    (dlt.defaultCategory.bind fun d => d.numberFormatLocales)
    (dlt.defaultCategory.bind fun d => d.numberFormat) v

/-- The stop loop of the step parser: each threshold and output pair becomes
an item; the running `lastLabel` is the formatted threshold of the current
pair; a middle pair is labelled with the range to the next threshold and the
final pair with a greater-than label.  A failed normalization aborts the
whole parse.  The source first stores the formatted current threshold in the
label and immediately overwrites it, which this model folds into one write. -/
def stepLoop (getV : Val → Option CategoryLegendItem) (gs : Val → String) :
    String → List (Val × Val) → Option (List CategoryLegendItem)
  | _, [] => some []
  | lastLabel, (_, o) :: rest =>
    match getV o with
    | none => none
    | some stop =>
      match rest with
      | [] => some [{ stop with label := some (.str (">" ++ lastLabel)) }]
      | (t2, _) :: _ =>
        let l := gs t2
        match stepLoop getV gs l rest with
        | none => none
        | some items =>
            some ({ stop with label := some (.str (lastLabel ++ " - " ++ l)) }
              :: items)

/-- DynamicLegend parseStep: a step expression of odd length at least 5 whose
base output matches the property kind becomes a category legend; the base
item gets a less-than label from the first threshold. -/
def parseStep (host : Host) (ctl : LegendControl) (lyr : Layer)
    (dlt : DynamicLegendType) (ty : StyleType) (exp : List Val) :
    Option Legend :=
  if 5 ≤ exp.length ∧ exp.length % 2 = 1 then
    let base := jsGet exp 2
    let typeOk : Bool :=
      match ty, base with
      | .color, .str _ => true
      | .image, .str _ => true
      | .scale, .num _ => true
      | _, _ => false
    if typeOk then
      match getValue host ctl base ty with
      | none => none
      | some baseItem =>
        let gs := stepLabel host ctl dlt
        let lastLabel := gs (jsGet exp 3)
        let baseItem :=
          { baseItem with label := some (.str ("<" ++ lastLabel)) }
        match stepLoop (fun v => getValue host ctl v ty) gs lastLabel
            (pairList (exp.drop 3)) with
        | none => none
        | some items =>
          some (.category {
            items := baseItem :: items
            subtitle := jsOrOpt dlt.subtitle
              (getSubtitle dlt.subtitleFallback (jsGet exp 1) lyr)
            footer := jsOrOpt dlt.footer (getFooter dlt.footerFallback lyr)
            layout := some (match ty with
              | .image => "column"
              | _ => "column-reverse")
            collapse := some (match ty with
              | .color => true
              | _ => false) })
    else none
  else none

/-- The pair loop of the match parser: each label and output pair becomes an
item whose label is the raw match key; a failed normalization aborts. -/
def matchLoop (getV : Val → Option CategoryLegendItem) :
    List (Val × Val) → Option (List CategoryLegendItem)
  | [] => some []
  | (t, o) :: rest =>
    match getV o with
    | none => none
    | some stop =>
        (matchLoop getV rest).map fun items =>
          { stop with label := some t } :: items

/-- DynamicLegend parseMatch: a match expression of odd length at least 5
becomes a category legend with one item per label and output pair plus a
fallback item labelled `no data`.  The null check guarding the fallback in
the source reads a variable named like the loop variable that is out of scope
there, which resolves to the always-truthy DOM global `stop` function, so a
fallback output that fails to normalize is dereferenced anyway and raises a
TypeError instead of declining. -/
def parseMatch (host : Host) (ctl : LegendControl) (lyr : Layer)
    (dlt : DynamicLegendType) (ty : StyleType) (exp : List Val) :
    Except JsError (Option Legend) :=
  if 5 ≤ exp.length ∧ exp.length % 2 = 1 then
    let getV := fun v => getValue host ctl v ty
    match matchLoop getV (pairList ((exp.drop 2).dropLast)) with
    | none => .ok none
    | some items =>
      match getV (jsGet exp (exp.length - 1)) with
      | none => .error .typeError
      | some fallback =>
        .ok (some (.category {
          items := items ++ [{ fallback with label := some (.str "no data") }]
          subtitle := jsOrOpt dlt.subtitle
            (getSubtitle dlt.subtitleFallback (jsGet exp 1) lyr)
          footer := jsOrOpt dlt.footer (getFooter dlt.footerFallback lyr)
          collapse := some (match ty with
            | .color => true
            | _ => false) }))
  else .ok none

/-- The stop loop of the gradient branch: every output must be a string; each
stop records its interpolation offset; a label is dropped when the offset is
within `0.05` of `lastOffset`, and only in that branch is `lastOffset`
advanced (in the keep branch the source leaves it at its previous value,
initially `-1`).  A non-numeric stop input would make the offset NaN in the
source; it reaches the offset function through `Val.toNumD` here. -/
def gradientLoop (interpFn : ℚ → ℚ) :
    ℚ → List (Val × Val) → Option (List ColorStop)
  | _, [] => some []
  | lastOffset, (lbl, out) :: rest =>
    match out with
    | .str c =>
      let offset := interpFn (lbl.toNumD 0)
      if offset - lastOffset < 1 / 20 then
        (gradientLoop interpFn offset rest).map fun stops =>
          { offset := offset, color := c, label := none } :: stops
      else
        (gradientLoop interpFn lastOffset rest).map fun stops =>
          { offset := offset, color := c, label := some lbl } :: stops
    | _ => none

/-- The stop loop of the scale branch: every output must be a number; an
output of exactly zero is remapped to `0.01`; the item label is the raw stop
input. -/
def scaleLoop : List (Val × Val) → Option (List CategoryLegendItem)
  | [] => some []
  | (lbl, out) :: rest =>
    match out with
    | .num q =>
        (scaleLoop rest).map fun items =>
          { shapeSize := some (if q = 0 then 1 / 100 else q)
            label := some lbl } :: items
    | _ => none

/-- Insert an element immediately before the last position of a list, the
`splice(length - 1, 0, x)` of the source. -/
def insertBeforeLast (l : List α) (x : α) : List α :=
  l.take (l.length - 1) ++ x :: l.drop (l.length - 1)

/-- DynamicLegend parseInterpolation: an interpolate expression of odd length
at least 7.  Color kind gives a gradient through `gradientLoop` when the
method is supported.  Scale kind gives a category through `scaleLoop`; with
exactly two stops a synthetic midpoint item is spliced in before the last
item, and on that path the offset function is applied without a null check,
so an unsupported method raises a TypeError there.  Image kind is
unsupported. -/
def parseInterpolation (host : Host) (lyr : Layer) (dlt : DynamicLegendType)
    (ty : StyleType) (exp : List Val) : Except JsError (Option Legend) :=
  if 7 ≤ exp.length ∧ exp.length % 2 = 1 then
    let subtitle := jsOrOpt dlt.subtitle
      (getSubtitle dlt.subtitleFallback (jsGet exp 2) lyr)
    let footer := jsOrOpt dlt.footer (getFooter dlt.footerFallback lyr)
    let minLabel := jsGet exp 3
    let maxLabel := jsGet exp (exp.length - 2)
    match ty with
    | .color =>
      match getInterpFn host (jsGet exp 1) (minLabel.toNumD 0)
          (maxLabel.toNumD 0) with
      | some interpFn =>
        match gradientLoop interpFn (-1) (pairList (exp.drop 3)) with
        | none => .ok none
        | some stops =>
          .ok (some (.gradient
            { stops := stops, subtitle := subtitle, footer := footer }))
      | none => .ok none
    | .scale =>
      match scaleLoop (pairList (exp.drop 3)) with
      | none => .ok none
      | some items =>
        if exp.length = 7 then
          let minL := minLabel.toNumD 0
          let maxL := maxLabel.toNumD 0
          let dx := maxL - minL
          let midRaw := minL + dx / 2
          match getInterpFn host (jsGet exp 1) minL maxL with
          | none => .error .typeError
          | some interpFn =>
            let minOutput := (jsGet exp 4).toNumD 0
            let maxOutput := (jsGet exp 6).toNumD 0
            let midOutput := interpFn midRaw * (maxOutput - minOutput)
              + minOutput
            let midLabel := Utils.round midRaw
              (max (Utils.decimalPlaces host (minLabel.toNumD 0))
                (Utils.decimalPlaces host (maxLabel.toNumD 0)) + 1)
            .ok (some (.category {
              items := insertBeforeLast items
                { shapeSize := some midOutput, label := some (.num midLabel) }
              layout := some "column-reverse"
              subtitle := subtitle
              footer := footer
              fitItems := some true }))
        else
          .ok (some (.category {
            items := items
            layout := some "column-reverse"
            subtitle := subtitle
            footer := footer
            fitItems := some true }))
    | .image => .ok none
  else .ok none

/-- Apply a function to the element of a list at an index, leaving the list
unchanged when the index is out of range.  The source indexes the stop array
of a gradient it just produced, which always has at least two stops, so the
out-of-range case is unreachable there. -/
def modifyAt (l : List α) (i : ℕ) (f : α → α) : List α :=
  match l.get? i with
  | some x => l.set i (f x)
  | none => l

/-- The gradient label override for line stroke and heat-map parses: every
stop label is cleared, then the first stop is labelled `low` and the last
stop `high`. -/
def overrideGradientLabels (g : GradientLegend) : GradientLegend :=
  let cleared := g.stops.map fun s => { s with label := none }
  let withLow := modifyAt cleared 0 fun s => { s with label := some (.str "low") }
  { g with
    stops := modifyAt withLow (withLow.length - 1)
      fun s => { s with label := some (.str "high") } }

/-- Object.assign of the category defaults onto a produced category legend:
a present field of the defaults overwrites the field of the legend. -/
def assignCategoryDefaults (c : CategoryLegend) (d : CategoryDefaults) :
    CategoryLegend :=
  { c with
    layout := d.layout <|> c.layout
    itemLayout := d.itemLayout <|> c.itemLayout
    color := d.color <|> c.color
    shape := d.shape <|> c.shape
    shapeSize := d.shapeSize <|> c.shapeSize
    fitItems := d.fitItems <|> c.fitItems
    strokeWidth := d.strokeWidth <|> c.strokeWidth
    labelsOverlapShapes := d.labelsOverlapShapes <|> c.labelsOverlapShapes
    numberFormat := d.numberFormat <|> c.numberFormat
    numberFormatLocales := d.numberFormatLocales <|> c.numberFormatLocales
    cssClass := d.cssClass <|> c.cssClass }

/-- Object.assign of the gradient defaults onto a produced gradient legend. -/
def assignGradientDefaults (g : GradientLegend) (d : GradientDefaults) :
    GradientLegend :=
  { g with
    orientation := d.orientation <|> g.orientation
    tickSize := d.tickSize <|> g.tickSize
    barLength := d.barLength <|> g.barLength
    barThickness := d.barThickness <|> g.barThickness
    fontSize := d.fontSize <|> g.fontSize
    fontFamily := d.fontFamily <|> g.fontFamily
    numberFormat := d.numberFormat <|> g.numberFormat
    numberFormatLocales := d.numberFormatLocales <|> g.numberFormatLocales }

/-- The post-processing a freshly parsed legend receives inside parseStyle:
category legends get the category defaults; gradient legends get their labels
overridden to low and high when requested, then the gradient defaults. -/
def applyDefaults (dlt : DynamicLegendType) (overrideLabels : Bool)
    (l : Legend) : Legend :=
  match l with
  | .category c =>
    match dlt.defaultCategory with
    | some d => .category (assignCategoryDefaults c d)
    | none => .category c
  | .gradient g =>
    let g := if overrideLabels then overrideGradientLabels g else g
    match dlt.defaultGradient with
    | some d => .gradient (assignGradientDefaults g d)
    | none => .gradient g

/-- The final touches inside parseStyle: a numeric layer zoom bound is copied
onto the legend, and the css class of the dynamic legend settings is assigned
unconditionally. -/
def finalizeLegend (opt : LayerOptions) (dlt : DynamicLegendType)
    (l : Legend) : Legend :=
  match l with
  | .category c =>
    .category { c with
      minZoom := opt.minZoom <|> c.minZoom
      maxZoom := opt.maxZoom <|> c.maxZoom
      cssClass := dlt.cssClass }
  | .gradient g =>
    .gradient { g with
      minZoom := opt.minZoom <|> g.minZoom
      maxZoom := opt.maxZoom <|> g.maxZoom
      cssClass := dlt.cssClass }

/-- DynamicLegend parseStyle: read the property from the layer options; when
it is an expression (a non-empty array headed by a string), dispatch on the
tag to the matching shape parser, then apply defaults, label overrides, zoom
bounds and the css class.  Anything else yields nothing. -/
def parseStyle (host : Host) (ctl : LegendControl) (lyr : Layer)
    (dlt : DynamicLegendType) (property : String) (ty : StyleType)
    (overrideLabels : Bool) : Except JsError (Option Legend) :=
  match lyr.options.getProp property with
  | .arr elems =>
    match elems with
    | .str tag :: _ =>
      let parsed : Except JsError (Option Legend) :=
        if tag = "step" then Except.ok (parseStep host ctl lyr dlt ty elems)
        else if tag = "match" then parseMatch host ctl lyr dlt ty elems
        else if tag = "interpolate" then
          parseInterpolation host lyr dlt ty elems
        else .ok none
      parsed.map fun lOpt =>
        lOpt.map fun l =>
          finalizeLegend lyr.options dlt (applyDefaults dlt overrideLabels l)
    | _ => .ok none
  | _ => .ok none

/-- The radius post-processing of the bubble branch: every item size of a
category legend is doubled because the radius is half a diameter.  Radius
legends come from scale parsing, so every item carries a size. -/
def doubleShapeSizes (l : Legend) : Legend :=
  match l with
  | .category c =>
    .category { c with
      items := c.items.map fun it =>
        { it with shapeSize := it.shapeSize.map (· * 2) } }
  | other => other

/-- DynamicLegend parse: the per-layer-kind router.  Bubble parses color then
radius, doubling radius sizes and back-filling a static layer color onto the
radius category legend.  Line parses the stroke gradient with label
override, falling back to the stroke color, then the stroke width, forcing
line shapes and back-filling a static stroke color when no gradient legend
exists.  Polygon kinds prefer the fill pattern over the fill color with
square shapes.  Heat map parses its color with the label override.  An
invisible layer or an absent one yields no legends. -/
def parse (host : Host) (ctl : LegendControl) (dlt : DynamicLegendType)
    (lyrOpt : Option Layer) : Except JsError (List Legend) :=
  match lyrOpt with
  | none => .ok []
  | some lyr =>
    let opt := lyr.options
    if opt.visible then
      match lyr.kind with
      | .bubble => do
        let colorLegend ← parseStyle host ctl lyr dlt "color" .color false
        let radiusLegend ← parseStyle host ctl lyr dlt "radius" .scale false
        let radiusLegend := radiusLegend.map doubleShapeSizes
        let radiusLegend :=
          match opt.color with
          | some (.str c) => overrideCategoryValue radiusLegend "color" c
          | _ => radiusLegend
        .ok (colorLegend.toList ++ radiusLegend.toList)
      | .line => do
        let sg ← parseStyle host ctl lyr dlt "strokeGradient" .color true
        let scLegend ←
          match sg with
          | some _ => pure (none : Option Legend)
          | none => parseStyle host ctl lyr dlt "strokeColor" .color true
        let sgDone := overrideCategoryValue sg "shape" "line"
        let scDone := overrideCategoryValue scLegend "shape" "line"
        let swl ← parseStyle host ctl lyr dlt "strokeWidth" .scale false
        let swl := overrideCategoryValue swl "shape" "line"
        let swl :=
          if sg.isNone then
            match opt.strokeColor with
            | some (.str c) => overrideCategoryValue swl "color" c
            | _ => swl
          else swl
        .ok (sgDone.toList ++ scDone.toList ++ swl.toList)
      | .polygon | .polygonExtrusion => do
        let fp ← parseStyle host ctl lyr dlt "fillPattern" .image false
        match fp with
        | some _ => .ok (overrideCategoryValue fp "shape" "square").toList
        | none => do
          let fc ← parseStyle host ctl lyr dlt "fillColor" .color false
          .ok (overrideCategoryValue fc "shape" "square").toList
      | .heatMap => do
        let c ← parseStyle host ctl lyr dlt "color" .color true
        .ok c.toList
    else .ok []

end DynamicLegend

/-- Decimal string of a rational whose denominator divides a power of ten,
the way JS prints such float values; other denominators fall back to a
fraction notation, which the concrete inputs used here never produce. -/
def ratToString (q : ℚ) : String :=
  if q.den = 1 then toString q.num
  else
    match (List.range 31).find? (fun k => (q * 10 ^ k).den = 1) with
    | some k =>
      let m := (q * 10 ^ k).num
      let sign := if m < 0 then "-" else ""
      let a := m.natAbs
      let p := 10 ^ k
      let fs := toString (a % p)
      let pad := String.mk (List.replicate (k - fs.length) '0')
      sign ++ toString (a / p) ++ "." ++ pad ++ fs
    | none => toString q.num ++ "/" ++ toString q.den

/-- A concrete host instantiation used for closed evaluations: exact
exponentiation on integer exponents, plain decimal formatting (which agrees
with the default-locale formatting on the small magnitudes exercised), and a
schematic icon builder. -/
def simpleHost : Host where
  pow := fun b e => if e.den = 1 then b ^ e.num else 0
  toLocaleString := fun _ _ q => ratToString q
  numToString := ratToString
  builtinImage := fun template colorHex => template ++ ":" ++ colorHex

/-- Evaluation helper: a rational with denominator one prints as its integer
numerator. -/
theorem ratToString_int (q : ℚ) (n : ℤ) (s : String) (hd : q.den = 1)
    (hn : q.num = n) (hs : toString n = s) : ratToString q = s := by
  simp [ratToString, hd, hn, hs]

/-! Concrete fixtures shared by the closed evaluations below. -/

/-- A legend control with no resources and no attached map. -/
def emptyControl : LegendControl := {}

/-- Dynamic legend settings with every option left unset. -/
def emptySettings : DynamicLegendType := {}

/-- A bare layer used when only the parsers themselves are exercised. -/
def scratchLayer : Layer := { kind := .bubble, id := "lyr" }

/-- The input getter expression of the fixtures. -/
def getX : Val := .arr [.str "get", .str "x"]

/-- A cubic-bezier interpolation method expression. -/
def cubicBezierMethod : Val :=
  .arr [.str "cubic-bezier", .num 0, .num 0, .num 1, .num 1]

/-- A two-stop cubic-bezier interpolate expression. -/
def cubicBezierTwoStop : List Val :=
  [.str "interpolate", cubicBezierMethod, getX, .num 0, .num 10, .num 10,
    .num 50]

/-- A three-stop cubic-bezier interpolate expression. -/
def cubicBezierThreeStop : List Val :=
  [.str "interpolate", cubicBezierMethod, getX, .num 0, .num 10, .num 5,
    .num 20, .num 10, .num 50]

/-! Specification-side definitions of the interpolation offset formulas, taken
from the words of the specification for comparison with the source function. -/

/-- Spec formula: `linearOffset(x, min, max) = (x - min) / (max - min)`. -/
def linearOffset (x minV maxV : ℚ) : ℚ := (x - minV) / (maxV - minV)

/-- Spec formula:
`exponentialOffset(x, min, max, base) = (pow(base, x - min) - 1) / (pow(base, max - min) - 1)`,
with `pow` the float power primitive of the host. -/
def exponentialOffset (pw : ℚ → ℚ → ℚ) (x minV maxV base : ℚ) : ℚ :=
  (pw base (x - minV) - 1) / (pw base (maxV - minV) - 1)

/-- C8: the offset function used by the interpolation parser equals
`(x - min) / (max - min)` for the linear method and
`(pow(base, x - min) - 1) / (pow(base, max - min) - 1)` for the exponential
method, and whenever `max - min = 0` it is the constant zero function for
every method (the zero-width guard runs before the method is inspected), with
no division-by-zero fault; in this total rational model a division by zero
cannot fault, and the guard makes the degenerate result the constant 0 exactly
as specified. -/
theorem C8_interpolation_offsets (host : Host) (minValue maxValue x base : ℚ) :
    (maxValue - minValue = 0 →
      ∀ m : Val, ∃ f, DynamicLegend.getInterpFn host m minValue maxValue
        = some f ∧ f x = 0) ∧
    (maxValue - minValue ≠ 0 →
      ∃ f, DynamicLegend.getInterpFn host (.arr [.str "linear"])
          minValue maxValue = some f ∧
        f x = linearOffset x minValue maxValue) ∧
    (maxValue - minValue ≠ 0 →
      ∃ f, DynamicLegend.getInterpFn host
          (.arr [.str "exponential", .num base]) minValue maxValue = some f ∧
        f x = exponentialOffset host.pow x minValue maxValue base) := by
  refine ⟨fun h m => ?_, fun h => ?_, fun h => ?_⟩
  · have hf : DynamicLegend.getInterpFn host m minValue maxValue
        = some fun _ => 0 := by
      simp [DynamicLegend.getInterpFn, h]
    exact ⟨_, hf, rfl⟩
  · have hf : DynamicLegend.getInterpFn host (.arr [.str "linear"])
        minValue maxValue
        = some fun y => (y - minValue) / (maxValue - minValue) := by
      simp [DynamicLegend.getInterpFn, h, jsIndex]
    exact ⟨_, hf, rfl⟩
  · have hf : DynamicLegend.getInterpFn host
        (.arr [.str "exponential", .num base]) minValue maxValue
        = some fun y => (host.pow base (y - minValue) - 1)
            / (host.pow base (maxValue - minValue) - 1) := by
      simp [DynamicLegend.getInterpFn, h, jsIndex, Val.toNumD]
    exact ⟨_, hf, rfl⟩

/-- Witness for C8 at a concrete instance: range 0 to 4, input 1, base 2. -/
theorem C8_interpolation_offsets_witness :
    ((4 : ℚ) - 0 ≠ 0) ∧
    (∃ f, DynamicLegend.getInterpFn simpleHost (.arr [.str "linear"]) 0 4
        = some f ∧ f 1 = linearOffset 1 0 4) := by
  exact ⟨by norm_num,
    (C8_interpolation_offsets simpleHost 0 4 1 2).2.1 (by norm_num)⟩

/-- C1: the claim says an unsupported interpolation method (cubic-bezier)
always makes the interpolation parser decline silently for every property
kind.  The code does decline for the color and image kinds with a non-empty
range, but for the scale kind it contradicts its own comment that only linear
and exponential are supported: with exactly two stops it calls the null
offset function during midpoint synthesis and raises a TypeError, and with
three or more stops it never inspects the method at all and emits a category
legend. -/
theorem C1_cubic_bezier_scale_behavior :
    DynamicLegend.parseInterpolation simpleHost scratchLayer emptySettings
      .scale cubicBezierTwoStop = .error .typeError ∧
    (∃ c, DynamicLegend.parseInterpolation simpleHost scratchLayer
      emptySettings .scale cubicBezierThreeStop = .ok (some (.category c))) ∧
    DynamicLegend.parseInterpolation simpleHost scratchLayer emptySettings
      .color cubicBezierTwoStop = .ok none ∧
    DynamicLegend.parseInterpolation simpleHost scratchLayer emptySettings
      .image cubicBezierTwoStop = .ok none := by
  have h1 : ((10 : ℚ) - 0 = 0) = False := by norm_num
  have h2 : ((10 : ℚ) = 0) = False := by norm_num
  have h3 : ((50 : ℚ) = 0) = False := by norm_num
  have h4 : ((20 : ℚ) = 0) = False := by norm_num
  refine ⟨?_,
    ⟨{ items := [{ label := some (.num 0), shapeSize := some 10 },
        { label := some (.num 5), shapeSize := some 20 },
        { label := some (.num 10), shapeSize := some 50 }]
       layout := some "column-reverse"
       subtitle := some "lyr"
       footer := some ""
       fitItems := some true }, ?_⟩, ?_, ?_⟩ <;>
    simp [h1, h2, h3, h4, DynamicLegend.parseInterpolation,
      DynamicLegend.getInterpFn, DynamicLegend.scaleLoop,
      DynamicLegend.getSubtitle, DynamicLegend.getFooter,
      DynamicLegend.insertBeforeLast, pairList, jsGet, jsIndex, Val.toNumD,
      jsOrOpt, strOr, cubicBezierTwoStop, cubicBezierThreeStop,
      cubicBezierMethod, getX, emptySettings, scratchLayer]

/-- Projection: the item sizes of a category legend. -/
def legendItemSizes : Legend → Option (List (Option ℚ))
  | .category c => some (c.items.map fun it => it.shapeSize)
  | .gradient _ => none

/-- Projection: the stops of a gradient legend. -/
def legendStops : Legend → Option (List ColorStop)
  | .gradient g => some g.stops
  | .category _ => none

/-- The labels of every item produced by the match loop are the raw match
keys of the corresponding pairs, in order. -/
theorem matchLoop_labels (getV : Val → Option CategoryLegendItem) :
    ∀ (ps : List (Val × Val)) (items : List CategoryLegendItem),
      DynamicLegend.matchLoop getV ps = some items →
      items.map (fun it => it.label) = ps.map fun p => some p.1 := by
  intro ps
  induction ps with
  | nil =>
    intro items h
    simp [DynamicLegend.matchLoop] at h
    simp [← h]
  | cons p rest ih =>
    obtain ⟨t, o⟩ := p
    intro items h
    cases hv : getV o with
    | none => simp [DynamicLegend.matchLoop, hv] at h
    | some stop =>
      simp only [DynamicLegend.matchLoop, hv, Option.map_eq_some'] at h
      obtain ⟨its, hits, rfl⟩ := h
      simp [ih its hits]

/-- A match expression whose fallback output is a number, which cannot
normalize under the color kind. -/
def matchBadFallback : List Val :=
  [.str "match", getX, .num 1, .str "red", .num 5]

/-- C3: the claim says the match parser returns nothing and raises no
exception whenever any output, including the trailing fallback, fails to
normalize.  The code does decline for a bad pair output, but for a bad
fallback output it raises a TypeError: the null check after the loop reads
the always-truthy DOM global named like the loop variable, so the undefined
fallback item is dereferenced. -/
theorem C3_match_fallback_crash :
    DynamicLegend.parseMatch simpleHost emptyControl scratchLayer
      emptySettings .color matchBadFallback = .error .typeError ∧
    DynamicLegend.parseMatch simpleHost emptyControl scratchLayer
      emptySettings .color [.str "match", getX, .num 1, .num 2, .str "gray"]
      = .ok none := by
  constructor <;>
    norm_num [DynamicLegend.parseMatch, DynamicLegend.matchLoop,
      DynamicLegend.getValue, pairList, jsGet, matchBadFallback, getX,
      emptyControl]

/-- C9: for every match expression that parses successfully into a category
legend, there is exactly one item per label and output pair plus one final
fallback item; each pair item is labelled with its raw match key and the
fallback item is labelled exactly the string `no data`. -/
theorem C9_match_invariant (host : Host) (ctl : LegendControl) (lyr : Layer)
    (dlt : DynamicLegendType) (ty : StyleType) (exp : List Val)
    (c : CategoryLegend)
    (h : DynamicLegend.parseMatch host ctl lyr dlt ty exp
      = .ok (some (.category c))) :
    c.items.length = (pairList ((exp.drop 2).dropLast)).length + 1 ∧
    c.items.map (fun it => it.label)
      = ((pairList ((exp.drop 2).dropLast)).map fun p => some p.1)
        ++ [some (Val.str "no data")] := by
  simp only [DynamicLegend.parseMatch] at h
  by_cases hlen : 5 ≤ exp.length ∧ exp.length % 2 = 1
  · rw [if_pos hlen] at h
    cases hml : DynamicLegend.matchLoop
        (fun v => DynamicLegend.getValue host ctl v ty)
        (pairList ((exp.drop 2).dropLast)) with
    | none => rw [hml] at h; exact absurd h (by simp)
    | some items =>
      rw [hml] at h
      cases hfb : DynamicLegend.getValue host ctl
          (jsGet exp (exp.length - 1)) ty with
      | none => rw [hfb] at h; exact absurd h (by simp)
      | some fallback =>
        rw [hfb] at h
        simp only [Except.ok.injEq, Option.some.injEq,
          Legend.category.injEq] at h
        subst h
        have hl := matchLoop_labels _ _ _ hml
        have hlength : items.length
            = (pairList ((exp.drop 2).dropLast)).length := by
          simpa using congrArg List.length hl
        constructor
        · simp [hlength]
        · simp [hl]
  · rw [if_neg hlen] at h; exact absurd h (by simp)

/-- A valid two-pair match expression under the color kind. -/
def matchColorExample : List Val :=
  [.str "match", getX, .num 1, .str "green", .num 2, .str "orange",
    .str "gray"]

/-- The category legend the match example parses to. -/
def matchColorCat : CategoryLegend :=
  { items := [{ color := some "green", label := some (.num 1) },
      { color := some "orange", label := some (.num 2) },
      { color := some "gray", label := some (.str "no data") }]
    subtitle := some "lyr"
    footer := some ""
    collapse := some true }

/-- Witness for C9 at the concrete match example: two pairs give three items
labelled 1, 2 and no data. -/
theorem C9_match_invariant_witness :
    (DynamicLegend.parseMatch simpleHost emptyControl scratchLayer
        emptySettings .color matchColorExample
      = .ok (some (.category matchColorCat))) ∧
    (matchColorCat.items.length
        = (pairList ((matchColorExample.drop 2).dropLast)).length + 1 ∧
      matchColorCat.items.map (fun it => it.label)
        = ((pairList ((matchColorExample.drop 2).dropLast)).map
            fun p => some p.1)
          ++ [some (Val.str "no data")]) := by
  have h : DynamicLegend.parseMatch simpleHost emptyControl scratchLayer
      emptySettings .color matchColorExample
      = .ok (some (.category matchColorCat)) := by
    simp [DynamicLegend.parseMatch, DynamicLegend.matchLoop,
      DynamicLegend.getValue, DynamicLegend.getSubtitle,
      DynamicLegend.getFooter, pairList, jsGet, jsOrOpt, strOr,
      matchColorExample, matchColorCat, getX, emptyControl, emptySettings,
      scratchLayer]
  exact ⟨h, C9_match_invariant simpleHost emptyControl scratchLayer
    emptySettings .color matchColorExample matchColorCat h⟩

/-- The tail labels the step parser produces, described over the list of
thresholds: a range label joining consecutive formatted thresholds with a
spaced dash, and a greater-than label for the final threshold. -/
def stepTailLabels (gs : Val → String) : List Val → List String
  | [] => []
  | [t] => [">" ++ gs t]
  | t :: t2 :: rest => (gs t ++ " - " ++ gs t2) :: stepTailLabels gs (t2 :: rest)

/-- One unfolding of the step loop on a cons cell. -/
theorem stepLoop_cons_eq (getV : Val → Option CategoryLegendItem)
    (gs : Val → String) (L : String) (t o : Val)
    (rest : List (Val × Val)) :
    DynamicLegend.stepLoop getV gs L ((t, o) :: rest)
      = match getV o with
        | none => none
        | some stop =>
          match rest with
          | [] => some [{ stop with label := some (.str (">" ++ L)) }]
          | (t2, _) :: _ =>
            match DynamicLegend.stepLoop getV gs (gs t2) rest with
            | none => none
            | some items =>
              some ({ stop with
                label := some (.str (L ++ " - " ++ gs t2)) } :: items) := rfl

/-- Inversion of the step loop on a single final pair. -/
theorem stepLoop_single (getV : Val → Option CategoryLegendItem)
    (gs : Val → String) (L : String) (t o : Val)
    (items : List CategoryLegendItem) :
    DynamicLegend.stepLoop getV gs L [(t, o)] = some items ↔
      ∃ stop, getV o = some stop ∧
        items = [{ stop with label := some (.str (">" ++ L)) }] := by
  rw [stepLoop_cons_eq]
  cases hv : getV o <;> simp [eq_comm]

/-- Inversion of the step loop on a pair followed by at least one more. -/
theorem stepLoop_pair_cons (getV : Val → Option CategoryLegendItem)
    (gs : Val → String) (L : String) (t o t2 o2 : Val)
    (rest : List (Val × Val)) (items : List CategoryLegendItem) :
    DynamicLegend.stepLoop getV gs L ((t, o) :: (t2, o2) :: rest)
        = some items ↔
      ∃ stop items2, getV o = some stop ∧
        DynamicLegend.stepLoop getV gs (gs t2) ((t2, o2) :: rest)
          = some items2 ∧
        items = { stop with
          label := some (.str (L ++ " - " ++ gs t2)) } :: items2 := by
  rw [stepLoop_cons_eq]
  cases hv : getV o
  · simp
  · cases hr : DynamicLegend.stepLoop getV gs (gs t2) ((t2, o2) :: rest) <;>
      simp [hr, eq_comm]

/-- The step loop yields one item per remaining pair. -/
theorem stepLoop_length (getV : Val → Option CategoryLegendItem)
    (gs : Val → String) :
    ∀ (ps : List (Val × Val)) (L : String)
      (items : List CategoryLegendItem),
      DynamicLegend.stepLoop getV gs L ps = some items →
      items.length = ps.length := by
  intro ps
  induction ps with
  | nil =>
    intro L items h
    simp [DynamicLegend.stepLoop] at h
    simp [← h]
  | cons p rest ih =>
    obtain ⟨t, o⟩ := p
    intro L items h
    cases rest with
    | nil =>
      rw [stepLoop_single] at h
      obtain ⟨stop, _, rfl⟩ := h
      rfl
    | cons p2 rest2 =>
      obtain ⟨t2, o2⟩ := p2
      rw [stepLoop_pair_cons] at h
      obtain ⟨stop, items2, _, hr, rfl⟩ := h
      simp [ih _ _ hr]

/-- The labels the step loop produces are exactly the tail labels over the
thresholds of its pairs, provided the running label is the formatted first
threshold. -/
theorem stepLoop_labels (getV : Val → Option CategoryLegendItem)
    (gs : Val → String) :
    ∀ (rest : List (Val × Val)) (t0 o0 : Val)
      (items : List CategoryLegendItem),
      DynamicLegend.stepLoop getV gs (gs t0) ((t0, o0) :: rest)
        = some items →
      items.map (fun it => it.label)
        = (stepTailLabels gs (((t0, o0) :: rest).map Prod.fst)).map
            fun s => some (.str s) := by
  intro rest
  induction rest with
  | nil =>
    intro t0 o0 items h
    rw [stepLoop_single] at h
    obtain ⟨stop, _, rfl⟩ := h
    simp [stepTailLabels]
  | cons p2 rest2 ih =>
    obtain ⟨t2, o2⟩ := p2
    intro t0 o0 items h
    rw [stepLoop_pair_cons] at h
    obtain ⟨stop, items2, _, hr, rfl⟩ := h
    simp only [List.map_cons, stepTailLabels, ih t2 o2 items2 hr]

/-- C4 amended: for every step expression that parses successfully into a
category legend, the category has one item per threshold plus the base item;
the base item is labelled a less-than sign directly followed by the formatted
first threshold, each middle item the two adjacent formatted thresholds
joined by a spaced dash, and the last item a greater-than sign directly
followed by the formatted last threshold.  The source inserts no space after
the less-than and greater-than signs. -/
theorem C4_step_labels (host : Host) (ctl : LegendControl) (lyr : Layer)
    (dlt : DynamicLegendType) (ty : StyleType) (input base t1 o1 : Val)
    (rest2 : List Val) (c : CategoryLegend)
    (h : DynamicLegend.parseStep host ctl lyr dlt ty
        (.str "step" :: input :: base :: t1 :: o1 :: rest2)
      = some (.category c)) :
    c.items.length = (pairList (t1 :: o1 :: rest2)).length + 1 ∧
    c.items.map (fun it => it.label)
      = (("<" ++ DynamicLegend.stepLabel host ctl dlt t1)
          :: stepTailLabels (DynamicLegend.stepLabel host ctl dlt)
            ((pairList (t1 :: o1 :: rest2)).map Prod.fst)).map
          fun s => some (.str s) := by
  simp only [DynamicLegend.parseStep] at h
  split at h
  · split at h
    · cases hbv : DynamicLegend.getValue host ctl
          (jsGet (Val.str "step" :: input :: base :: t1 :: o1 :: rest2) 2)
          ty with
      | none => rw [hbv] at h; exact absurd h (by simp)
      | some baseItem =>
        rw [hbv] at h
        cases hsl : DynamicLegend.stepLoop
            (fun v => DynamicLegend.getValue host ctl v ty)
            (DynamicLegend.stepLabel host ctl dlt)
            (DynamicLegend.stepLabel host ctl dlt
              (jsGet (Val.str "step" :: input :: base :: t1 :: o1 :: rest2) 3))
            (pairList
              ((Val.str "step" :: input :: base :: t1 :: o1 :: rest2).drop 3))
            with
        | none => rw [hsl] at h; exact absurd h (by simp)
        | some items =>
          rw [hsl] at h
          simp only [Option.some.injEq, Legend.category.injEq] at h
          subst h
          have hget3 : jsGet
              (Val.str "step" :: input :: base :: t1 :: o1 :: rest2) 3
              = t1 := by simp [jsGet]
          have hdrop : (Val.str "step" :: input :: base :: t1 :: o1
              :: rest2).drop 3 = t1 :: o1 :: rest2 := by simp
          rw [hget3, hdrop] at hsl
          have hpl : pairList (t1 :: o1 :: rest2)
              = (t1, o1) :: pairList rest2 := rfl
          rw [hpl] at hsl
          have hlab := stepLoop_labels
            (fun v => DynamicLegend.getValue host ctl v ty)
            (DynamicLegend.stepLabel host ctl dlt) (pairList rest2) t1 o1
            items hsl
          have hlen := stepLoop_length
            (fun v => DynamicLegend.getValue host ctl v ty)
            (DynamicLegend.stepLabel host ctl dlt) _ _ _ hsl
          constructor
          · simp [hlen, hpl, hget3]
          · simp only [List.map_cons, hlab, hget3, hpl]
    · exact absurd h (by simp)
  · exact absurd h (by simp)

/-- The step expression of the specification example under the color kind. -/
def stepColorExample : List Val :=
  [.str "step", getX, .str "#000", .num 1, .str "#111", .num 2, .str "#222"]

/-- The category legend the step example parses to: note the absence of a
space after the less-than and greater-than signs. -/
def stepColorCat : CategoryLegend :=
  { items := [{ color := some "#000", label := some (.str "<1") },
      { color := some "#111", label := some (.str "1 - 2") },
      { color := some "#222", label := some (.str ">2") }]
    subtitle := some "lyr"
    footer := some ""
    layout := some "column-reverse"
    collapse := some true }

/-- C4 counterexample to the claim as stated: the example step expression
yields the labels `<1`, `1 - 2`, `>2`, not `< 1`, `1 - 2`, `> 2`; there is no
space after the comparison signs. -/
theorem C4_step_labels_counterexample :
    DynamicLegend.parseStep simpleHost emptyControl scratchLayer emptySettings
      .color stepColorExample = some (.category stepColorCat) ∧
    stepColorCat.items.map (fun it => it.label)
      ≠ [some (.str "< 1"), some (.str "1 - 2"), some (.str "> 2")] := by
  have r1 : ratToString 1 = "1" :=
    ratToString_int 1 1 "1" (by norm_num) (by norm_num) (by decide)
  have r2 : ratToString 2 = "2" :=
    ratToString_int 2 2 "2" (by norm_num) (by norm_num) (by decide)
  constructor
  · simp [DynamicLegend.parseStep, DynamicLegend.stepLoop,
      DynamicLegend.stepLabel, DynamicLegend.getValue,
      DynamicLegend.getSubtitle, DynamicLegend.getFooter, Utils.getString,
      pairList, jsGet, jsOrOpt, strOr, stepColorExample, stepColorCat, getX,
      emptyControl, emptySettings, scratchLayer, simpleHost, r1, r2]
  · simp [stepColorCat]

/-- Witness for the amended C4 at the concrete step example. -/
theorem C4_step_labels_witness :
    DynamicLegend.parseStep simpleHost emptyControl scratchLayer emptySettings
      .color stepColorExample = some (.category stepColorCat) ∧
    (stepColorCat.items.length
        = (pairList (Val.num 1 :: Val.str "#111"
            :: [Val.num 2, Val.str "#222"])).length + 1 ∧
      stepColorCat.items.map (fun it => it.label)
        = (("<" ++ DynamicLegend.stepLabel simpleHost emptyControl
              emptySettings (.num 1))
            :: stepTailLabels
              (DynamicLegend.stepLabel simpleHost emptyControl emptySettings)
              ((pairList (Val.num 1 :: Val.str "#111"
                :: [Val.num 2, Val.str "#222"])).map Prod.fst)).map
            fun s => some (.str s)) := by
  have r1 : ratToString 1 = "1" :=
    ratToString_int 1 1 "1" (by norm_num) (by norm_num) (by decide)
  have r2 : ratToString 2 = "2" :=
    ratToString_int 2 2 "2" (by norm_num) (by norm_num) (by decide)
  have h : DynamicLegend.parseStep simpleHost emptyControl scratchLayer
      emptySettings .color stepColorExample
      = some (.category stepColorCat) := by
    simp [DynamicLegend.parseStep, DynamicLegend.stepLoop,
      DynamicLegend.stepLabel, DynamicLegend.getValue,
      DynamicLegend.getSubtitle, DynamicLegend.getFooter, Utils.getString,
      pairList, jsGet, jsOrOpt, strOr, stepColorExample, stepColorCat, getX,
      emptyControl, emptySettings, scratchLayer, simpleHost, r1, r2]
  exact ⟨h, C4_step_labels simpleHost emptyControl scratchLayer emptySettings
    .color getX (.str "#000") (.num 1) (.str "#111")
    [Val.num 2, Val.str "#222"] stepColorCat h⟩

/-- A value normalized under the scale kind always carries a size. -/
theorem getValue_scale_shapeSize (host : Host) (ctl : LegendControl)
    (v : Val) (it : CategoryLegendItem)
    (h : DynamicLegend.getValue host ctl v .scale = some it) :
    it.shapeSize.isSome := by
  cases v with
  | num q =>
    simp [DynamicLegend.getValue] at h
    simp [← h]
  | str s => simp [DynamicLegend.getValue] at h
  | arr l => simp [DynamicLegend.getValue] at h
  | undef => simp [DynamicLegend.getValue] at h

/-- One unfolding of the scale loop on a cons cell. -/
theorem scaleLoop_cons_eq (t o : Val) (rest : List (Val × Val)) :
    DynamicLegend.scaleLoop ((t, o) :: rest)
      = match o with
        | .num q => (DynamicLegend.scaleLoop rest).map fun items =>
            { shapeSize := some (if q = 0 then 1 / 100 else q),
              label := some t } :: items
        | _ => none := rfl

/-- Every item the scale loop produces carries a size. -/
theorem scaleLoop_shapeSize :
    ∀ (ps : List (Val × Val)) (items : List CategoryLegendItem),
      DynamicLegend.scaleLoop ps = some items →
      ∀ it ∈ items, it.shapeSize.isSome := by
  intro ps
  induction ps with
  | nil =>
    intro items h it hit
    simp [DynamicLegend.scaleLoop] at h
    subst h
    cases hit
  | cons p rest ih =>
    obtain ⟨t, o⟩ := p
    intro items h it hit
    rw [scaleLoop_cons_eq] at h
    cases o with
    | num q =>
      simp only [Option.map_eq_some'] at h
      obtain ⟨its, hits, rfl⟩ := h
      rcases List.mem_cons.mp hit with rfl | hmem
      · simp
      · exact ih its hits it hmem
    | str s => simp at h
    | arr l => simp at h
    | undef => simp at h

/-- Every item the step loop produces carries a size whenever the normalizer
only produces items with a size. -/
theorem stepLoop_shapeSize (getV : Val → Option CategoryLegendItem)
    (gs : Val → String)
    (hg : ∀ v it, getV v = some it → it.shapeSize.isSome) :
    ∀ (ps : List (Val × Val)) (L : String)
      (items : List CategoryLegendItem),
      DynamicLegend.stepLoop getV gs L ps = some items →
      ∀ it ∈ items, it.shapeSize.isSome := by
  intro ps
  induction ps with
  | nil =>
    intro L items h it hit
    simp [DynamicLegend.stepLoop] at h
    subst h
    cases hit
  | cons p rest ih =>
    obtain ⟨t, o⟩ := p
    intro L items h it hit
    cases rest with
    | nil =>
      rw [stepLoop_single] at h
      obtain ⟨stop, hv, rfl⟩ := h
      simp only [List.mem_singleton] at hit
      subst hit
      simpa using hg _ _ hv
    | cons p2 rest2 =>
      obtain ⟨t2, o2⟩ := p2
      rw [stepLoop_pair_cons] at h
      obtain ⟨stop, items2, hv, hr, rfl⟩ := h
      rcases List.mem_cons.mp hit with rfl | hmem
      · simpa using hg _ _ hv
      · exact ih _ _ hr it hmem

/-- One unfolding of the match loop on a cons cell. -/
theorem matchLoop_cons_eq (getV : Val → Option CategoryLegendItem)
    (t o : Val) (rest : List (Val × Val)) :
    DynamicLegend.matchLoop getV ((t, o) :: rest)
      = match getV o with
        | none => none
        | some stop => (DynamicLegend.matchLoop getV rest).map fun items =>
            { stop with label := some t } :: items := rfl

/-- Every item the match loop produces carries a size whenever the normalizer
only produces items with a size. -/
theorem matchLoop_shapeSize (getV : Val → Option CategoryLegendItem)
    (hg : ∀ v it, getV v = some it → it.shapeSize.isSome) :
    ∀ (ps : List (Val × Val)) (items : List CategoryLegendItem),
      DynamicLegend.matchLoop getV ps = some items →
      ∀ it ∈ items, it.shapeSize.isSome := by
  intro ps
  induction ps with
  | nil =>
    intro items h it hit
    simp [DynamicLegend.matchLoop] at h
    subst h
    cases hit
  | cons p rest ih =>
    obtain ⟨t, o⟩ := p
    intro items h it hit
    rw [matchLoop_cons_eq] at h
    cases hv : getV o with
    | none => rw [hv] at h; simp at h
    | some stop =>
      rw [hv] at h
      simp only [Option.map_eq_some'] at h
      obtain ⟨its, hits, rfl⟩ := h
      rcases List.mem_cons.mp hit with rfl | hmem
      · simpa using hg _ _ hv
      · exact ih its hits it hmem

/-- Membership in a list with an element spliced in before its last position
comes from the original list or is the new element. -/
theorem mem_insertBeforeLast {α : Type} (l : List α) (x a : α)
    (h : a ∈ DynamicLegend.insertBeforeLast l x) : a ∈ l ∨ a = x := by
  simp only [DynamicLegend.insertBeforeLast, List.mem_append,
    List.mem_cons] at h
  rcases h with h | h | h
  · exact Or.inl (List.take_subset _ _ h)
  · exact Or.inr h
  · exact Or.inl (List.drop_subset _ _ h)

/-- C7 amended: every category item produced for the scale kind by any of the
three shape parsers carries a shapeSize, including the synthetic midpoint
item of a two-stop interpolation; the normalizer remaps an output of exactly
zero to 0.01 and passes every other number through unchanged, negative
values included.  Non-negativity does not hold, and the synthetic midpoint
size is the raw interpolated value, not zero-remapped (see the
counterexample). -/
theorem C7_scale_sizes (host : Host) (ctl : LegendControl) (lyr : Layer)
    (dlt : DynamicLegendType) :
    (∀ (exp : List Val) (c : CategoryLegend),
      DynamicLegend.parseStep host ctl lyr dlt .scale exp
          = some (.category c) →
        ∀ it ∈ c.items, it.shapeSize.isSome) ∧
    (∀ (exp : List Val) (c : CategoryLegend),
      DynamicLegend.parseMatch host ctl lyr dlt .scale exp
          = .ok (some (.category c)) →
        ∀ it ∈ c.items, it.shapeSize.isSome) ∧
    (∀ (exp : List Val) (c : CategoryLegend),
      DynamicLegend.parseInterpolation host lyr dlt .scale exp
          = .ok (some (.category c)) →
        ∀ it ∈ c.items, it.shapeSize.isSome) ∧
    (DynamicLegend.getValue host ctl (.num 0) .scale
        = some { shapeSize := some (1 / 100) } ∧
      ∀ q : ℚ, q ≠ 0 →
        DynamicLegend.getValue host ctl (.num q) .scale
          = some { shapeSize := some q }) := by
  refine ⟨?_, ?_, ?_, by simp [DynamicLegend.getValue],
    fun q hq => by simp [DynamicLegend.getValue, hq]⟩
  · intro exp c h it hit
    simp only [DynamicLegend.parseStep] at h
    split at h
    · split at h
      · cases hbv : DynamicLegend.getValue host ctl (jsGet exp 2) .scale with
        | none => rw [hbv] at h; exact absurd h (by simp)
        | some baseItem =>
          rw [hbv] at h
          cases hsl : DynamicLegend.stepLoop
              (fun v => DynamicLegend.getValue host ctl v .scale)
              (DynamicLegend.stepLabel host ctl dlt)
              (DynamicLegend.stepLabel host ctl dlt (jsGet exp 3))
              (pairList (exp.drop 3)) with
          | none => rw [hsl] at h; exact absurd h (by simp)
          | some items =>
            rw [hsl] at h
            simp only [Option.some.injEq, Legend.category.injEq] at h
            subst h
            rcases List.mem_cons.mp hit with rfl | hmem
            · simpa using getValue_scale_shapeSize host ctl _ _ hbv
            · exact stepLoop_shapeSize _ _
                (fun v it hv => getValue_scale_shapeSize host ctl v it hv)
                _ _ _ hsl it hmem
      · exact absurd h (by simp)
    · exact absurd h (by simp)
  · intro exp c h it hit
    simp only [DynamicLegend.parseMatch] at h
    split at h
    · cases hml : DynamicLegend.matchLoop
          (fun v => DynamicLegend.getValue host ctl v .scale)
          (pairList ((exp.drop 2).dropLast)) with
      | none => rw [hml] at h; exact absurd h (by simp)
      | some items =>
        rw [hml] at h
        cases hfb : DynamicLegend.getValue host ctl
            (jsGet exp (exp.length - 1)) .scale with
        | none => rw [hfb] at h; exact absurd h (by simp)
        | some fallback =>
          rw [hfb] at h
          simp only [Except.ok.injEq, Option.some.injEq,
            Legend.category.injEq] at h
          subst h
          rcases List.mem_append.mp hit with hmem | hmem
          · exact matchLoop_shapeSize _
              (fun v it hv => getValue_scale_shapeSize host ctl v it hv)
              _ _ hml it hmem
          · simp only [List.mem_singleton] at hmem
            subst hmem
            simpa using getValue_scale_shapeSize host ctl _ _ hfb
    · exact absurd h (by simp)
  · intro exp c h it hit
    simp only [DynamicLegend.parseInterpolation] at h
    split at h
    · split at h
      · exact absurd h (by simp)
      next items hsc =>
        split at h
        · split at h
          · exact absurd h (by simp)
          next interpFn hfn =>
            simp only [Except.ok.injEq, Option.some.injEq,
              Legend.category.injEq] at h
            subst h
            rcases mem_insertBeforeLast _ _ _ hit with hmem | rfl
            · exact scaleLoop_shapeSize _ _ hsc it hmem
            · simp
        · simp only [Except.ok.injEq, Option.some.injEq,
            Legend.category.injEq] at h
          subst h
          exact scaleLoop_shapeSize _ _ hsc it hit
    · exact absurd h (by simp)

/-- A two-stop linear scale interpolation with a negative first output. -/
def interpScaleNegative : List Val :=
  [.str "interpolate", .arr [.str "linear"], getX, .num 0, .num (-5),
    .num 10, .num 10]

/-- A two-stop linear scale interpolation whose outputs interpolate to zero
at the midpoint. -/
def interpScaleMidZero : List Val :=
  [.str "interpolate", .arr [.str "linear"], getX, .num 0, .num (-10),
    .num 10, .num 10]

/-- C7 counterexample to the claim as stated: a negative scale output is
emitted as a negative size (sizes are not non-negative), and the synthetic
midpoint item of a two-stop interpolation can be emitted with size exactly
zero (the zero remap applies only to stop outputs). -/
theorem C7_scale_sizes_counterexample :
    (DynamicLegend.parseInterpolation simpleHost scratchLayer emptySettings
        .scale interpScaleNegative).map (fun lo => lo.bind legendItemSizes)
      = .ok (some [some (-5), some (5 / 2), some 10]) ∧
    ((-5 : ℚ) < 0) ∧
    (DynamicLegend.parseInterpolation simpleHost scratchLayer emptySettings
        .scale interpScaleMidZero).map (fun lo => lo.bind legendItemSizes)
      = .ok (some [some (-10), some 0, some 10]) := by
  have hd : ((10 : ℚ) - 0 = 0) = False := by norm_num
  have hm5 : ((-5 : ℚ) = 0) = False := by norm_num
  have hm10 : ((-10 : ℚ) = 0) = False := by norm_num
  have h10 : ((10 : ℚ) = 0) = False := by norm_num
  have hf : DynamicLegend.getInterpFn simpleHost (.arr [.str "linear"]) 0 10
      = some fun x => (x - 0) / (10 - 0) := by
    simp [DynamicLegend.getInterpFn, hd, jsIndex]
  refine ⟨?_, by norm_num, ?_⟩ <;>
  · simp [DynamicLegend.parseInterpolation, DynamicLegend.scaleLoop,
      DynamicLegend.getSubtitle, DynamicLegend.getFooter,
      DynamicLegend.insertBeforeLast, interpScaleNegative,
      interpScaleMidZero, pairList, jsGet, jsIndex, Val.toNumD, jsOrOpt,
      strOr, getX, emptySettings, scratchLayer, hd, hm5, hm10, h10,
      legendItemSizes, Except.map]
    rw [hf]
    norm_num

/-- A step expression over the scale kind. -/
def stepScaleExample : List Val :=
  [.str "step", getX, .num 5, .num 10, .num 8]

/-- The category legend the scale step example parses to. -/
def stepScaleCat : CategoryLegend :=
  { items := [{ label := some (.str "<10"), shapeSize := some 5 },
      { label := some (.str ">10"), shapeSize := some 8 }]
    subtitle := some "lyr"
    footer := some ""
    layout := some "column-reverse"
    collapse := some false }

/-- Witness for the amended C7 at the concrete scale step example. -/
theorem C7_scale_sizes_witness :
    (DynamicLegend.parseStep simpleHost emptyControl scratchLayer
        emptySettings .scale stepScaleExample
      = some (.category stepScaleCat)) ∧
    (∀ it ∈ stepScaleCat.items, it.shapeSize.isSome) := by
  have r10 : ratToString 10 = "10" :=
    ratToString_int 10 10 "10" (by norm_num) (by norm_num) (by decide)
  have h5 : ((5 : ℚ) = 0) = False := by norm_num
  have h8 : ((8 : ℚ) = 0) = False := by norm_num
  have h : DynamicLegend.parseStep simpleHost emptyControl scratchLayer
      emptySettings .scale stepScaleExample
      = some (.category stepScaleCat) := by
    simp [DynamicLegend.parseStep, DynamicLegend.stepLoop,
      DynamicLegend.stepLabel, DynamicLegend.getValue,
      DynamicLegend.getSubtitle, DynamicLegend.getFooter, Utils.getString,
      pairList, jsGet, jsOrOpt, strOr, stepScaleExample, stepScaleCat, getX,
      emptyControl, emptySettings, scratchLayer, simpleHost, r10, h5, h8]
  exact ⟨h, fun it hit =>
    (C7_scale_sizes simpleHost emptyControl scratchLayer emptySettings).1
      stepScaleExample stepScaleCat h it hit⟩

/-- C6: a two-stop scale interpolation that parses successfully synthesizes
exactly one midpoint item, inserted between the two stop items; its label is
the arithmetic midpoint of the two stop inputs rounded to one more decimal
place than the more precise of the two original labels, its size is the
offset of the midpoint rescaled into the output range, and the resulting
category has fitItems enabled. -/
theorem C6_two_stop_scale_synthesis (host : Host) (lyr : Layer)
    (dlt : DynamicLegendType) (m input : Val) (t1 o1 t2 o2 : ℚ)
    (c : CategoryLegend)
    (h : DynamicLegend.parseInterpolation host lyr dlt .scale
        [.str "interpolate", m, input, .num t1, .num o1, .num t2, .num o2]
      = .ok (some (.category c))) :
    ∃ f, DynamicLegend.getInterpFn host m t1 t2 = some f ∧
      c.items
        = [{ shapeSize := some (if o1 = 0 then 1 / 100 else o1),
             label := some (.num t1) },
           { shapeSize := some (f (t1 + (t2 - t1) / 2) * (o2 - o1) + o1),
             label := some (.num (Utils.round (t1 + (t2 - t1) / 2)
               (max (Utils.decimalPlaces host t1)
                 (Utils.decimalPlaces host t2) + 1))) },
           { shapeSize := some (if o2 = 0 then 1 / 100 else o2),
             label := some (.num t2) }] ∧
      c.fitItems = some true ∧
      t1 + (t2 - t1) / 2 = (t1 + t2) / 2 := by
  simp only [DynamicLegend.parseInterpolation, DynamicLegend.scaleLoop,
    pairList, jsGet, jsIndex, Val.toNumD, List.getD_cons_succ,
    List.getD_cons_zero, List.length_cons, List.length_nil,
    Option.map_some', Option.map_none'] at h
  norm_num at h
  cases hfn : DynamicLegend.getInterpFn host m t1 t2 with
  | none => rw [hfn] at h; exact absurd h (by simp)
  | some f =>
    rw [hfn] at h
    simp only [Except.ok.injEq, Option.some.injEq,
      Legend.category.injEq] at h
    subst h
    refine ⟨f, rfl, ?_, rfl, by ring⟩
    simp [DynamicLegend.insertBeforeLast]

/-- The two-stop linear scale interpolation of the specification example. -/
def interpScaleExample : List Val :=
  [.str "interpolate", .arr [.str "linear"], getX, .num 0, .num 10, .num 10,
    .num 50]

/-- The category legend the two-stop scale example parses to: the synthetic
midpoint item carries the input 5 and the interpolated size 30. -/
def interpScaleCat : CategoryLegend :=
  { items := [{ label := some (.num 0), shapeSize := some 10 },
      { label := some (.num 5), shapeSize := some 30 },
      { label := some (.num 10), shapeSize := some 50 }]
    layout := some "column-reverse"
    subtitle := some "lyr"
    footer := some ""
    fitItems := some true }

/-- Witness for C6 at the concrete example: three items, midpoint input 5,
midpoint size 30, fitItems enabled. -/
theorem C6_two_stop_scale_synthesis_witness :
    (DynamicLegend.parseInterpolation simpleHost scratchLayer emptySettings
        .scale interpScaleExample = .ok (some (.category interpScaleCat))) ∧
    (∃ f, DynamicLegend.getInterpFn simpleHost (.arr [.str "linear"]) 0 10
        = some f ∧
      interpScaleCat.items
        = [{ shapeSize := some (if (10 : ℚ) = 0 then 1 / 100 else 10),
             label := some (.num 0) },
           { shapeSize := some (f ((0 : ℚ) + (10 - 0) / 2) * (50 - 10) + 10),
             label := some (.num (Utils.round ((0 : ℚ) + (10 - 0) / 2)
               (max (Utils.decimalPlaces simpleHost 0)
                 (Utils.decimalPlaces simpleHost 10) + 1))) },
           { shapeSize := some (if (50 : ℚ) = 0 then 1 / 100 else 50),
             label := some (.num 10) }] ∧
      interpScaleCat.fitItems = some true ∧
      (0 : ℚ) + (10 - 0) / 2 = (0 + 10) / 2) := by
  have r0 : ratToString 0 = "0" :=
    ratToString_int 0 0 "0" (by norm_num) (by norm_num) (by decide)
  have r10 : ratToString 10 = "10" :=
    ratToString_int 10 10 "10" (by norm_num) (by norm_num) (by decide)
  have dp0 : Utils.decimalPlaces simpleHost 0 = 0 := by
    simp only [Utils.decimalPlaces, simpleHost, r0]
    decide
  have dp10 : Utils.decimalPlaces simpleHost 10 = 0 := by
    simp only [Utils.decimalPlaces, simpleHost, r10]
    decide
  have round5 : Utils.round 5 1 = 5 := by norm_num [Utils.round]
  have hd : ((10 : ℚ) - 0 = 0) = False := by norm_num
  have h10 : ((10 : ℚ) = 0) = False := by norm_num
  have h50 : ((50 : ℚ) = 0) = False := by norm_num
  have hf : DynamicLegend.getInterpFn simpleHost (.arr [.str "linear"]) 0 10
      = some fun x => (x - 0) / (10 - 0) := by
    simp [DynamicLegend.getInterpFn, hd, jsIndex]
  have h : DynamicLegend.parseInterpolation simpleHost scratchLayer
      emptySettings .scale interpScaleExample
      = .ok (some (.category interpScaleCat)) := by
    simp [DynamicLegend.parseInterpolation, DynamicLegend.scaleLoop,
      DynamicLegend.getSubtitle, DynamicLegend.getFooter,
      DynamicLegend.insertBeforeLast, interpScaleExample, interpScaleCat,
      pairList, jsGet, jsIndex, Val.toNumD, jsOrOpt, strOr, getX,
      emptySettings, scratchLayer, hd, h10, h50]
    rw [hf]
    norm_num [dp0, dp10, round5]
  exact ⟨h, C6_two_stop_scale_synthesis simpleHost scratchLayer emptySettings
    (.arr [.str "linear"]) getX 0 10 10 50 interpScaleCat h⟩

/-- A linear color interpolation with stops at offsets 0, 0.01 and 1: the
first two stops are only 0.01 apart. -/
def closeStopsGradient : List Val :=
  [.str "interpolate", .arr [.str "linear"], getX, .num 0, .str "red",
    .num (1 / 100), .str "green", .num 1, .str "blue"]

/-- C2: the claim (and the comment in the source) says a stop label is
suppressed when its offset is within 0.05 of the previously kept label
offset, so no two retained labels are closer than 0.05.  The code advances
its running offset only inside the suppression branch, leaving it at its
initial value of -1 while labels are kept, so for stops with offsets in the
unit interval the suppression condition never fires: the stops at offsets 0
and 0.01 both retain their labels even though they are 0.01 apart. -/
theorem C2_labels_not_suppressed :
    (DynamicLegend.parseInterpolation simpleHost scratchLayer emptySettings
        .color closeStopsGradient).map (fun lo => lo.bind legendStops)
      = .ok (some [{ offset := 0, color := "red", label := some (.num 0) },
          { offset := 1 / 100, color := "green",
            label := some (.num (1 / 100)) },
          { offset := 1, color := "blue", label := some (.num 1) }]) ∧
    (1 : ℚ) / 100 - 0 < 1 / 20 := by
  have hd : ((1 : ℚ) - 0 = 0) = False := by norm_num
  have hf : DynamicLegend.getInterpFn simpleHost (.arr [.str "linear"]) 0 1
      = some fun x => (x - 0) / (1 - 0) := by
    simp [DynamicLegend.getInterpFn, hd, jsIndex]
  refine ⟨?_, by norm_num⟩
  simp [DynamicLegend.parseInterpolation, DynamicLegend.getSubtitle,
    DynamicLegend.getFooter, closeStopsGradient, pairList, jsGet, jsIndex,
    Val.toNumD, jsOrOpt, strOr, getX, emptySettings, scratchLayer,
    legendStops, Except.map]
  rw [hf]
  norm_num [DynamicLegend.gradientLoop, Val.toNumD]

/-- A shape override on a category legend yields a category legend whose
color field and item list are untouched. -/
theorem overrideCategoryValue_shape_fields (c : CategoryLegend) (v : String) :
    ∃ c2, DynamicLegend.overrideCategoryValue (some (.category c)) "shape" v
      = some (.category c2) ∧ c2.color = c.color ∧ c2.items = c.items := by
  by_cases h : strFalsy c.shape = true
  · exact ⟨{ c with shape := some v },
      by simp [DynamicLegend.overrideCategoryValue, h], rfl, rfl⟩
  · exact ⟨c, by simp [DynamicLegend.overrideCategoryValue, h], rfl, rfl⟩

/-- A color override on a category legend yields a category legend whose
descriptor-level color is back-filled exactly when it was falsy, with the
item list untouched. -/
theorem overrideCategoryValue_color_fields (c : CategoryLegend) (v : String) :
    ∃ c2, DynamicLegend.overrideCategoryValue (some (.category c)) "color" v
      = some (.category c2) ∧
      c2.color = (if strFalsy c.color = true then some v else c.color) ∧
      c2.items = c.items := by
  by_cases h : strFalsy c.color = true
  · exact ⟨{ c with color := some v },
      by simp [DynamicLegend.overrideCategoryValue, h], by simp [h], rfl⟩
  · exact ⟨c, by simp [DynamicLegend.overrideCategoryValue, h],
      by simp [h], rfl⟩

/-- C5 amended: whenever a visible layer carries a static string color in its
options and its scale-kind expression yields a category legend — the bubble
radius with the layer color, or the line stroke width with the stroke color
when no stroke gradient legend exists — the router writes the static color
onto the category legend itself (the top-level color field, which the
renderer uses for items without their own color) when that field is absent
or empty; the color and label fields of the individual items are not
modified. -/
theorem C5_static_color_on_descriptor (host : Host) (ctl : LegendControl)
    (dlt : DynamicLegendType) (lyr : Layer) (col : String)
    (copt : Option Legend) (c : CategoryLegend)
    (hvis : lyr.options.visible = true)
    (hcase :
      (lyr.kind = .bubble ∧
        lyr.options.color = some (.str col) ∧
        DynamicLegend.parseStyle host ctl lyr dlt "color" .color false
          = .ok copt ∧
        DynamicLegend.parseStyle host ctl lyr dlt "radius" .scale false
          = .ok (some (.category c))) ∨
      (lyr.kind = .line ∧
        lyr.options.strokeColor = some (.str col) ∧
        DynamicLegend.parseStyle host ctl lyr dlt "strokeGradient" .color true
          = .ok none ∧
        DynamicLegend.parseStyle host ctl lyr dlt "strokeColor" .color true
          = .ok copt ∧
        DynamicLegend.parseStyle host ctl lyr dlt "strokeWidth" .scale false
          = .ok (some (.category c)))) :
    ∃ pre c2,
      DynamicLegend.parse host ctl dlt (some lyr)
        = .ok (pre ++ [.category c2]) ∧
      c2.color = (if strFalsy c.color = true then some col else c.color) ∧
      c2.items.map (fun it => it.color) = c.items.map (fun it => it.color) ∧
      c2.items.map (fun it => it.label)
        = c.items.map (fun it => it.label) := by
  rcases hcase with ⟨hk, hcol, hc, hr⟩ | ⟨hk, hcol, hsg, hsc, hsw⟩
  · -- bubble: sizes doubled, then the color back-fill
    obtain ⟨c2, hov, hcol2, hitems⟩ := overrideCategoryValue_color_fields
      { c with items := c.items.map fun it =>
          { it with shapeSize := it.shapeSize.map (· * 2) } } col
    refine ⟨copt.toList, c2, ?_, ?_, ?_, ?_⟩
    · simp only [DynamicLegend.parse, hk, hvis, if_true]
      rw [hc, hr, hcol]
      simp [Except.bind, bind, Except.instMonad,
        DynamicLegend.doubleShapeSizes, hov]
    · simpa using hcol2
    · rw [hitems]; simp [List.map_map, Function.comp_def]
    · rw [hitems]; simp [List.map_map, Function.comp_def]
  · -- line: shape forced to line, then the color back-fill
    obtain ⟨cS, hovS, hcolS, hitemsS⟩ :=
      overrideCategoryValue_shape_fields c "line"
    obtain ⟨c2, hov2, hcol2, hitems2⟩ :=
      overrideCategoryValue_color_fields cS col
    refine ⟨(DynamicLegend.overrideCategoryValue copt "shape" "line").toList,
      c2, ?_, ?_, ?_, ?_⟩
    · simp only [DynamicLegend.parse, hk, hvis, if_true, Except.bind, bind,
        Except.instMonad, pure, Except.pure]
      rw [hsg]
      simp only [Except.bind]
      rw [hsc]
      simp only [Except.bind]
      rw [hsw]
      simp only [Except.bind]
      rw [hovS]
      rw [hcol]
      have hnone : DynamicLegend.overrideCategoryValue none "shape" "line"
          = (none : Option Legend) := rfl
      simp [hov2, hnone]
    · rw [hcol2, hcolS]
    · rw [hitems2, hitemsS]
    · rw [hitems2, hitemsS]

/-- The radius step expression of the bubble fixture. -/
def bubbleRadiusStep : Val :=
  .arr [.str "step", getX, .num 5, .num 10, .num 8]

/-- The options of the bubble fixture: visible, a static color string, and a
radius step expression. -/
def bubbleLayerOptions : LayerOptions where
  visible := true
  color := some (.str "#123456")
  radius := some bubbleRadiusStep

/-- A bubble layer with a static color and a radius step expression. -/
def bubbleLayer : Layer :=
  { kind := .bubble, id := "b1", options := bubbleLayerOptions }

/-- The radius category legend before the router post-processing: item sizes
5 and 8, no colors anywhere. -/
def bubbleRadiusRawCat : CategoryLegend :=
  { items := [{ label := some (.str "<10"), shapeSize := some 5 },
      { label := some (.str ">10"), shapeSize := some 8 }]
    subtitle := some "b1"
    footer := some ""
    layout := some "column-reverse"
    collapse := some false }

/-- The radius category legend the router finally emits: doubled sizes, the
static color on the legend itself, and still no color on any item. -/
def bubbleRadiusCat : CategoryLegend :=
  { items := [{ label := some (.str "<10"), shapeSize := some 10 },
      { label := some (.str ">10"), shapeSize := some 16 }]
    subtitle := some "b1"
    footer := some ""
    layout := some "column-reverse"
    collapse := some false
    color := some "#123456" }

/-- C5 counterexample to the claim as stated: after the override step the
static color sits on the category legend, while the color field of every
item is still absent, not set to the static color. -/
theorem C5_counterexample :
    DynamicLegend.parse simpleHost emptyControl emptySettings
        (some bubbleLayer) = .ok [.category bubbleRadiusCat] ∧
    bubbleRadiusCat.color = some "#123456" ∧
    bubbleRadiusCat.items.map (fun it => it.color) = [none, none] := by
  have r10 : ratToString 10 = "10" :=
    ratToString_int 10 10 "10" (by norm_num) (by norm_num) (by decide)
  have h5 : ((5 : ℚ) = 0) = False := by norm_num
  have h8 : ((8 : ℚ) = 0) = False := by norm_num
  refine ⟨?_, rfl, by simp [bubbleRadiusCat]⟩
  simp [DynamicLegend.parse, DynamicLegend.parseStyle, DynamicLegend.parseStep,
    DynamicLegend.stepLoop, DynamicLegend.stepLabel, DynamicLegend.getValue,
    DynamicLegend.getSubtitle, DynamicLegend.getFooter,
    DynamicLegend.applyDefaults, DynamicLegend.finalizeLegend,
    DynamicLegend.doubleShapeSizes, DynamicLegend.overrideCategoryValue,
    LayerOptions.getProp, Utils.getString, pairList, jsGet, jsOrOpt, strOr,
    strFalsy, bubbleLayer, bubbleLayerOptions, bubbleRadiusStep,
    bubbleRadiusCat, getX, emptyControl, emptySettings, simpleHost, r10, h5,
    h8, Except.bind, bind, Except.instMonad, Except.map]
  norm_num

/-- The options of the line fixture: visible, a static stroke color string,
and a stroke width step expression. -/
def lineLayerOptions : LayerOptions where
  visible := true
  strokeColor := some (.str "#abc123")
  strokeWidth := some bubbleRadiusStep

/-- A line layer with a static stroke color and a stroke width step
expression. -/
def lineLayer : Layer :=
  { kind := .line, id := "l1", options := lineLayerOptions }

/-- The stroke width category legend before the router post-processing: item
sizes 5 and 8, no colors anywhere. -/
def lineStrokeRawCat : CategoryLegend :=
  { items := [{ label := some (.str "<10"), shapeSize := some 5 },
      { label := some (.str ">10"), shapeSize := some 8 }]
    subtitle := some "l1"
    footer := some ""
    layout := some "column-reverse"
    collapse := some false }

/-- Witness for the amended C5 at the line fixture: the stroke width category
legend is emitted with the static stroke color on the legend itself and with
every item color still absent. -/
theorem C5_static_color_witness :
    (lineLayer.options.visible = true) ∧
    (lineLayer.kind = .line ∧
      lineLayer.options.strokeColor = some (.str "#abc123") ∧
      DynamicLegend.parseStyle simpleHost emptyControl lineLayer emptySettings
          "strokeGradient" .color true = .ok none ∧
      DynamicLegend.parseStyle simpleHost emptyControl lineLayer emptySettings
          "strokeColor" .color true = .ok none ∧
      DynamicLegend.parseStyle simpleHost emptyControl lineLayer emptySettings
          "strokeWidth" .scale false
        = .ok (some (.category lineStrokeRawCat))) ∧
    (∃ pre c2,
      DynamicLegend.parse simpleHost emptyControl emptySettings
          (some lineLayer)
        = .ok (pre ++ [.category c2]) ∧
      c2.color = (if strFalsy lineStrokeRawCat.color = true
        then some "#abc123" else lineStrokeRawCat.color) ∧
      c2.items.map (fun it => it.color)
        = lineStrokeRawCat.items.map (fun it => it.color) ∧
      c2.items.map (fun it => it.label)
        = lineStrokeRawCat.items.map (fun it => it.label)) := by
  have r10 : ratToString 10 = "10" :=
    ratToString_int 10 10 "10" (by norm_num) (by norm_num) (by decide)
  have h5 : ((5 : ℚ) = 0) = False := by norm_num
  have h8 : ((8 : ℚ) = 0) = False := by norm_num
  have hsg : DynamicLegend.parseStyle simpleHost emptyControl lineLayer
      emptySettings "strokeGradient" .color true = .ok none := by
    simp [DynamicLegend.parseStyle, LayerOptions.getProp, lineLayer,
      lineLayerOptions]
  have hsc : DynamicLegend.parseStyle simpleHost emptyControl lineLayer
      emptySettings "strokeColor" .color true = .ok none := by
    simp [DynamicLegend.parseStyle, LayerOptions.getProp, lineLayer,
      lineLayerOptions]
  have hsw : DynamicLegend.parseStyle simpleHost emptyControl lineLayer
      emptySettings "strokeWidth" .scale false
      = .ok (some (.category lineStrokeRawCat)) := by
    simp [DynamicLegend.parseStyle, DynamicLegend.parseStep,
      DynamicLegend.stepLoop, DynamicLegend.stepLabel, DynamicLegend.getValue,
      DynamicLegend.getSubtitle, DynamicLegend.getFooter,
      DynamicLegend.applyDefaults, DynamicLegend.finalizeLegend,
      LayerOptions.getProp, Utils.getString, pairList, jsGet, jsOrOpt, strOr,
      lineLayer, lineLayerOptions, bubbleRadiusStep, lineStrokeRawCat,
      getX, emptyControl, emptySettings, simpleHost, r10, h5, h8, Except.map]
  exact ⟨rfl, ⟨rfl, rfl, hsg, hsc, hsw⟩,
    C5_static_color_on_descriptor simpleHost emptyControl emptySettings
      lineLayer "#abc123" none lineStrokeRawCat rfl
      (Or.inr ⟨rfl, rfl, hsg, hsc, hsw⟩)⟩

/-- The pair loop walks two elements per step. -/
theorem pairList_length : ∀ l : List Val, (pairList l).length = l.length / 2
  | [] => by simp [pairList]
  | [_] => by simp [pairList]
  | _ :: _ :: rest => by
    simp only [pairList, List.length_cons]
    rw [pairList_length rest]
    omega

/-- One unfolding of the gradient loop on a cons cell. -/
theorem gradientLoop_cons_eq (f : ℚ → ℚ) (L : ℚ) (lbl out : Val)
    (rest : List (Val × Val)) :
    DynamicLegend.gradientLoop f L ((lbl, out) :: rest)
      = match out with
        | .str c =>
          let offset := f (lbl.toNumD 0)
          if offset - L < 1 / 20 then
            (DynamicLegend.gradientLoop f offset rest).map fun stops =>
              { offset := offset, color := c, label := none } :: stops
          else
            (DynamicLegend.gradientLoop f L rest).map fun stops =>
              { offset := offset, color := c, label := some lbl } :: stops
        | _ => none := rfl

/-- The gradient loop yields one stop per pair. -/
theorem gradientLoop_length (f : ℚ → ℚ) :
    ∀ (ps : List (Val × Val)) (L : ℚ) (stops : List ColorStop),
      DynamicLegend.gradientLoop f L ps = some stops →
      stops.length = ps.length := by
  intro ps
  induction ps with
  | nil =>
    intro L stops h
    simp [DynamicLegend.gradientLoop] at h
    simp [← h]
  | cons p rest ih =>
    obtain ⟨lbl, out⟩ := p
    intro L stops h
    rw [gradientLoop_cons_eq] at h
    cases out with
    | str c =>
      simp only at h
      by_cases hcnd : f (lbl.toNumD 0) - L < 1 / 20
      · rw [if_pos hcnd] at h
        simp only [Option.map_eq_some'] at h
        obtain ⟨st, hst, rfl⟩ := h
        simp [ih _ _ hst]
      · rw [if_neg hcnd] at h
        simp only [Option.map_eq_some'] at h
        obtain ⟨st, hst, rfl⟩ := h
        simp [ih _ _ hst]
    | num q => simp at h
    | arr l => simp at h
    | undef => simp at h

/-- A gradient produced by the interpolation parser always has at least two
stops (the expression has at least two stop pairs). -/
theorem parseInterpolation_gradient_stops (host : Host) (lyr : Layer)
    (dlt : DynamicLegendType) (ty : StyleType) (exp : List Val)
    (g : GradientLegend)
    (h : DynamicLegend.parseInterpolation host lyr dlt ty exp
      = .ok (some (.gradient g))) :
    2 ≤ g.stops.length := by
  simp only [DynamicLegend.parseInterpolation] at h
  split at h
  case isTrue hlen =>
    split at h
    · split at h
      · split at h
        · exact absurd h (by simp)
        next stops hgl =>
          simp only [Except.ok.injEq, Option.some.injEq,
            Legend.gradient.injEq] at h
          subst h
          have hl := gradientLoop_length _ _ _ _ hgl
          have hp := pairList_length (exp.drop 3)
          simp only [List.length_drop] at hp
          simp only [hl, hp]
          omega
      · exact absurd h (by simp)
    · split at h
      · exact absurd h (by simp)
      · split at h
        · split at h
          · exact absurd h (by simp)
          · exact absurd h (by simp)
        · exact absurd h (by simp)
    · exact absurd h (by simp)
  case isFalse => exact absurd h (by simp)

/-- The step parser never yields a gradient legend. -/
theorem parseStep_ne_gradient (host : Host) (ctl : LegendControl)
    (lyr : Layer) (dlt : DynamicLegendType) (ty : StyleType) (exp : List Val)
    (g : GradientLegend) :
    DynamicLegend.parseStep host ctl lyr dlt ty exp
      ≠ some (.gradient g) := by
  intro h
  simp only [DynamicLegend.parseStep] at h
  split at h
  · split at h
    · split at h
      · exact absurd h (by simp)
      · split at h
        · exact absurd h (by simp)
        · exact absurd h (by simp)
    · exact absurd h (by simp)
  · exact absurd h (by simp)

/-- The match parser never yields a gradient legend. -/
theorem parseMatch_ne_gradient (host : Host) (ctl : LegendControl)
    (lyr : Layer) (dlt : DynamicLegendType) (ty : StyleType) (exp : List Val)
    (g : GradientLegend) :
    DynamicLegend.parseMatch host ctl lyr dlt ty exp
      ≠ .ok (some (.gradient g)) := by
  intro h
  simp only [DynamicLegend.parseMatch] at h
  split at h
  · split at h
    · exact absurd h (by simp)
    · split at h
      · exact absurd h (by simp)
      · exact absurd h (by simp)
  · exact absurd h (by simp)

/-- The interpolation parser under the scale kind never yields a gradient. -/
theorem parseInterpolation_scale_ne_gradient (host : Host) (lyr : Layer)
    (dlt : DynamicLegendType) (exp : List Val) (g : GradientLegend) :
    DynamicLegend.parseInterpolation host lyr dlt .scale exp
      ≠ .ok (some (.gradient g)) := by
  intro h
  simp only [DynamicLegend.parseInterpolation] at h
  split at h
  · split at h
    · exact absurd h (by simp)
    · split at h
      · split at h
        · exact absurd h (by simp)
        · exact absurd h (by simp)
      · exact absurd h (by simp)
  · exact absurd h (by simp)

/-- Applying a function at an index preserves the length of a list. -/
theorem modifyAt_length {α : Type} (l : List α) (i : ℕ) (f : α → α) :
    (DynamicLegend.modifyAt l i f).length = l.length := by
  unfold DynamicLegend.modifyAt
  cases h : l.get? i <;> simp

/-- Applying a function at a successor index walks past the head. -/
theorem modifyAt_cons_succ {α : Type} (x : α) (t : List α) (k : ℕ)
    (f : α → α) :
    DynamicLegend.modifyAt (x :: t) (k + 1) f
      = x :: DynamicLegend.modifyAt t k f := by
  cases h : t[k]? <;>
    simp [DynamicLegend.modifyAt, List.get?_eq_getElem?, h]

/-- Applying a function at index zero rewrites the head. -/
theorem modifyAt_zero_cons {α : Type} (x : α) (t : List α) (f : α → α) :
    DynamicLegend.modifyAt (x :: t) 0 f = f x :: t := by
  simp [DynamicLegend.modifyAt]

/-- Applying a function at the last position of a list with a non-empty tail
walks past the head. -/
theorem modifyAt_last_cons {α : Type} (x : α) (t : List α) (f : α → α)
    (ht : t ≠ []) :
    DynamicLegend.modifyAt (x :: t) ((x :: t).length - 1) f
      = x :: DynamicLegend.modifyAt t (t.length - 1) f := by
  cases t with
  | nil => exact absurd rfl ht
  | cons y t2 =>
    have hl : (x :: y :: t2).length - 1 = (y :: t2).length - 1 + 1 := by simp
    rw [hl, modifyAt_cons_succ]

/-- Setting the high label on the last stop of a non-empty all-unlabelled
stop list gives unlabelled stops followed by one high label. -/
theorem modifyAt_setLast_labels :
    ∀ (l : List ColorStop), l ≠ [] → (∀ s ∈ l, s.label = none) →
      (DynamicLegend.modifyAt l (l.length - 1)
          fun s => { s with label := some (.str "high") }).map
          (fun s => s.label)
        = List.replicate (l.length - 1) none ++ [some (.str "high")] := by
  intro l
  induction l with
  | nil => intro h; exact absurd rfl h
  | cons x t ih =>
    intro _ hall
    cases t with
    | nil => simp [DynamicLegend.modifyAt]
    | cons y t2 =>
      have hx : x.label = none := hall x (by simp)
      have hlen : (x :: y :: t2).length - 1 = (y :: t2).length - 1 + 1 := by
        simp
      rw [hlen, modifyAt_cons_succ]
      simp only [List.map_cons, hx]
      rw [ih (by simp) fun s hs => hall s (by simp [hs])]
      simp [List.replicate_succ]

/-- The gradient label override keeps the stop count and produces exactly one
low label, unlabelled middles, and one high label. -/
theorem overrideGradientLabels_labels (g : GradientLegend)
    (h2 : 2 ≤ g.stops.length) :
    (DynamicLegend.overrideGradientLabels g).stops.length
        = g.stops.length ∧
    (DynamicLegend.overrideGradientLabels g).stops.map (fun s => s.label)
      = some (.str "low")
        :: (List.replicate (g.stops.length - 2) none
          ++ [some (.str "high")]) := by
  cases hs : g.stops with
  | nil => rw [hs] at h2; exact absurd h2 (by simp)
  | cons a t =>
    cases t with
    | nil => rw [hs] at h2; exact absurd h2 (by simp)
    | cons b rest =>
      constructor
      · simp [DynamicLegend.overrideGradientLabels, hs, modifyAt_length]
      · have hall : ∀ s ∈ (({ b with label := none } : ColorStop)
            :: rest.map fun s => ({ s with label := none } : ColorStop)),
            s.label = none := by
          intro s hs2
          rcases List.mem_cons.mp hs2 with rfl | hmem
          · rfl
          · obtain ⟨s0, _, rfl⟩ := List.mem_map.mp hmem
            rfl
        simp only [DynamicLegend.overrideGradientLabels, hs, List.map_cons,
          modifyAt_zero_cons]
        rw [modifyAt_last_cons _ _ _ (by simp)]
        simp only [List.map_cons]
        rw [modifyAt_setLast_labels _ (by simp) hall]
        simp [List.replicate_succ]

/-- Pushing produced legends through the defaults and finalize steps can only
yield a gradient when the parser produced one, and with the label override
requested its stops are those of the overridden gradient. -/
theorem applyDefaults_finalize_gradient_inv (opt : LayerOptions)
    (dlt : DynamicLegendType) (ov : Bool) (l : Legend) (g : GradientLegend)
    (h : DynamicLegend.finalizeLegend opt dlt
        (DynamicLegend.applyDefaults dlt ov l) = .gradient g) :
    ∃ g0, l = .gradient g0 ∧
      g.stops = (if ov then DynamicLegend.overrideGradientLabels g0
        else g0).stops := by
  cases l with
  | category c =>
    cases hd : dlt.defaultCategory <;>
      simp [DynamicLegend.applyDefaults, DynamicLegend.finalizeLegend,
        hd] at h
  | gradient g0 =>
    refine ⟨g0, rfl, ?_⟩
    cases hd : dlt.defaultGradient <;>
      cases ov <;>
        [skip; skip; skip; skip] <;>
      · simp only [DynamicLegend.applyDefaults, DynamicLegend.finalizeLegend,
          DynamicLegend.assignGradientDefaults, hd, Bool.false_eq_true,
          if_false, if_true, Legend.gradient.injEq] at h
        subst h
        simp

/-- A gradient emitted by parseStyle with the label override requested has at
least two stops, a low label on the first, a high label on the last, and no
other labels. -/
theorem parseStyle_true_gradient_labels (host : Host) (ctl : LegendControl)
    (lyr : Layer) (dlt : DynamicLegendType) (property : String)
    (ty : StyleType) (g : GradientLegend)
    (h : DynamicLegend.parseStyle host ctl lyr dlt property ty true
      = .ok (some (.gradient g))) :
    2 ≤ g.stops.length ∧
    g.stops.map (fun s => s.label)
      = some (.str "low")
        :: (List.replicate (g.stops.length - 2) none
          ++ [some (.str "high")]) := by
  simp only [DynamicLegend.parseStyle] at h
  split at h
  next elems =>
    split at h
    next tag rest =>
      split at h
      · cases hps : DynamicLegend.parseStep host ctl lyr dlt ty
            (Val.str tag :: rest) with
        | none => rw [hps] at h; simp [Except.map] at h
        | some l =>
          rw [hps] at h
          simp only [Except.map, Option.map_some', Except.ok.injEq,
            Option.some.injEq] at h
          obtain ⟨g0, rfl, _⟩ :=
            applyDefaults_finalize_gradient_inv _ _ _ _ _ h
          exact absurd hps (parseStep_ne_gradient _ _ _ _ _ _ _)
      · split at h
        · cases hm : DynamicLegend.parseMatch host ctl lyr dlt ty
              (Val.str tag :: rest) with
          | error e => rw [hm] at h; simp [Except.map] at h
          | ok p =>
            rw [hm] at h
            cases p with
            | none => simp [Except.map] at h
            | some l =>
              simp only [Except.map, Option.map_some', Except.ok.injEq,
                Option.some.injEq] at h
              obtain ⟨g0, rfl, _⟩ :=
                applyDefaults_finalize_gradient_inv _ _ _ _ _ h
              exact absurd hm (parseMatch_ne_gradient _ _ _ _ _ _ _)
        · split at h
          · cases hm : DynamicLegend.parseInterpolation host lyr dlt ty
                (Val.str tag :: rest) with
            | error e => rw [hm] at h; simp [Except.map] at h
            | ok p =>
              rw [hm] at h
              cases p with
              | none => simp [Except.map] at h
              | some l =>
                simp only [Except.map, Option.map_some', Except.ok.injEq,
                  Option.some.injEq] at h
                obtain ⟨g0, rfl, hstops⟩ :=
                  applyDefaults_finalize_gradient_inv _ _ _ _ _ h
                have h2 :=
                  parseInterpolation_gradient_stops _ _ _ _ _ _ hm
                simp only [if_true] at hstops
                have hov := overrideGradientLabels_labels g0 h2
                rw [hstops, hov.1]
                exact ⟨h2, hov.2⟩
          · simp [Except.map] at h
    next => simp at h
  next => simp at h

/-- Overriding a category property never turns a legend into a gradient. -/
theorem overrideCategoryValue_category (c : CategoryLegend)
    (prop v : String) :
    ∃ c2, DynamicLegend.overrideCategoryValue (some (.category c)) prop v
      = some (.category c2) := by
  simp only [DynamicLegend.overrideCategoryValue]
  split
  · split
    · exact ⟨_, rfl⟩
    · exact ⟨_, rfl⟩
  · split
    · split
      · exact ⟨_, rfl⟩
      · exact ⟨_, rfl⟩
    · exact ⟨_, rfl⟩

/-- A gradient coming out of the category override was already the input. -/
theorem overrideCategoryValue_gradient_inv (o : Option Legend)
    (p v : String) (g : GradientLegend)
    (h : DynamicLegend.overrideCategoryValue o p v = some (.gradient g)) :
    o = some (.gradient g) := by
  cases o with
  | none => simp [DynamicLegend.overrideCategoryValue] at h
  | some l =>
    cases l with
    | gradient g1 => exact h
    | category c =>
      obtain ⟨c2, hc2⟩ := overrideCategoryValue_category c p v
      rw [hc2] at h
      simp at h

/-- Any parseStyle call for the scale kind never yields a gradient. -/
theorem parseStyle_scale_ne_gradient (host : Host) (ctl : LegendControl)
    (lyr : Layer) (dlt : DynamicLegendType) (property : String) (ov : Bool)
    (g : GradientLegend) :
    DynamicLegend.parseStyle host ctl lyr dlt property .scale ov
      ≠ .ok (some (.gradient g)) := by
  intro h
  simp only [DynamicLegend.parseStyle] at h
  split at h
  next elems =>
    split at h
    next tag rest =>
      split at h
      · cases hps : DynamicLegend.parseStep host ctl lyr dlt .scale
            (Val.str tag :: rest) with
        | none => rw [hps] at h; simp [Except.map] at h
        | some l =>
          rw [hps] at h
          simp only [Except.map, Option.map_some', Except.ok.injEq,
            Option.some.injEq] at h
          obtain ⟨g0, rfl, _⟩ :=
            applyDefaults_finalize_gradient_inv _ _ _ _ _ h
          exact absurd hps (parseStep_ne_gradient _ _ _ _ _ _ _)
      · split at h
        · cases hm : DynamicLegend.parseMatch host ctl lyr dlt .scale
              (Val.str tag :: rest) with
          | error e => rw [hm] at h; simp [Except.map] at h
          | ok p =>
            rw [hm] at h
            cases p with
            | none => simp [Except.map] at h
            | some l =>
              simp only [Except.map, Option.map_some', Except.ok.injEq,
                Option.some.injEq] at h
              obtain ⟨g0, rfl, _⟩ :=
                applyDefaults_finalize_gradient_inv _ _ _ _ _ h
              exact absurd hm (parseMatch_ne_gradient _ _ _ _ _ _ _)
        · split at h
          · cases hm : DynamicLegend.parseInterpolation host lyr dlt .scale
                (Val.str tag :: rest) with
            | error e => rw [hm] at h; simp [Except.map] at h
            | ok p =>
              rw [hm] at h
              cases p with
              | none => simp [Except.map] at h
              | some l =>
                simp only [Except.map, Option.map_some', Except.ok.injEq,
                  Option.some.injEq] at h
                obtain ⟨g0, rfl, _⟩ :=
                  applyDefaults_finalize_gradient_inv _ _ _ _ _ h
                exact absurd hm
                  (parseInterpolation_scale_ne_gradient _ _ _ _ _)
          · simp [Except.map] at h
    next => simp at h
  next => simp at h

/-- C10: for a line or heat-map layer, every gradient legend the router
produces has its expression-derived stop labels discarded: all stop labels
are cleared and only the first stop is labelled low and the last stop high,
so the threshold labels and collision-suppression labelling of gradients are
never observable on these layer kinds. -/
theorem C10_line_heatmap_gradient_labels (host : Host) (ctl : LegendControl)
    (dlt : DynamicLegendType) (lyr : Layer) (legs : List Legend)
    (g : GradientLegend)
    (hk : lyr.kind = .line ∨ lyr.kind = .heatMap)
    (hp : DynamicLegend.parse host ctl dlt (some lyr) = .ok legs)
    (hg : Legend.gradient g ∈ legs) :
    2 ≤ g.stops.length ∧
    g.stops.map (fun s => s.label)
      = some (.str "low")
        :: (List.replicate (g.stops.length - 2) none
          ++ [some (.str "high")]) := by
  simp only [DynamicLegend.parse] at hp
  cases hv : lyr.options.visible with
  | false =>
    rw [hv] at hp
    simp at hp
    subst hp
    cases hg
  | true =>
    rw [hv] at hp
    rcases hk with hk | hk <;> rw [hk] at hp <;>
      simp only [if_true, Except.bind, bind,
        Except.instMonad, pure, Except.pure] at hp
    · -- line layer
      cases hsg : DynamicLegend.parseStyle host ctl lyr dlt "strokeGradient"
          .color true with
      | error e => rw [hsg] at hp; simp [Except.bind] at hp
      | ok sg =>
        rw [hsg] at hp
        cases hsw : DynamicLegend.parseStyle host ctl lyr dlt "strokeWidth"
            .scale false with
        | error e =>
          rw [hsw] at hp
          cases sg with
          | some sgl => simp [Except.bind] at hp
          | none =>
            cases hsc : DynamicLegend.parseStyle host ctl lyr dlt
                "strokeColor" .color true with
            | error e2 => rw [hsc] at hp; simp [Except.bind] at hp
            | ok sc => rw [hsc] at hp; simp [Except.bind] at hp
        | ok swl =>
          rw [hsw] at hp
          cases sg with
          | some sgl =>
            simp only [Except.bind, Except.ok.injEq] at hp
            subst hp
            simp only [Option.isNone_some, Bool.false_eq_true, if_false,
              List.mem_append] at hg
            rcases hg with (hg | hg) | hg
            · cases sgl with
              | gradient g1 =>
                have hid : DynamicLegend.overrideCategoryValue
                    (some (.gradient g1)) "shape" "line"
                    = some (.gradient g1) := rfl
                rw [hid] at hg
                simp only [Option.toList_some, List.mem_singleton,
                  Legend.gradient.injEq] at hg
                subst hg
                exact parseStyle_true_gradient_labels _ _ _ _ _ _ _ hsg
              | category c1 =>
                obtain ⟨c2, hc2⟩ :=
                  overrideCategoryValue_category c1 "shape" "line"
                rw [hc2] at hg
                simp at hg
            · simp [DynamicLegend.overrideCategoryValue] at hg
            · have hx : DynamicLegend.overrideCategoryValue
                  (DynamicLegend.overrideCategoryValue swl "shape" "line")
                  "shape" "line" = some (.gradient g) ∨
                  DynamicLegend.overrideCategoryValue swl "shape" "line"
                    = some (.gradient g) := by
                right
                simpa using hg
              have hswg : swl = some (.gradient g) := by
                rcases hx with hx | hx
                · exact overrideCategoryValue_gradient_inv _ _ _ _
                    (overrideCategoryValue_gradient_inv _ _ _ _ hx)
                · exact overrideCategoryValue_gradient_inv _ _ _ _ hx
              rw [hswg] at hsw
              exact absurd hsw (parseStyle_scale_ne_gradient _ _ _ _ _ _ _)
          | none =>
            cases hsc : DynamicLegend.parseStyle host ctl lyr dlt
                "strokeColor" .color true with
            | error e2 => rw [hsc] at hp; simp [Except.bind] at hp
            | ok sc =>
              rw [hsc] at hp
              simp only [Except.bind, Except.ok.injEq] at hp
              subst hp
              have hnone : DynamicLegend.overrideCategoryValue none "shape"
                  "line" = (none : Option Legend) := rfl
              rw [hnone] at hg
              simp only [Option.isNone_none, if_true, List.mem_append,
                Option.toList_none, List.not_mem_nil, false_or,
                List.nil_append] at hg
              rcases hg with hg | hg
              · -- from the strokeColor parse
                rcases hg2 : sc with _ | scl
                · rw [hg2] at hg; simp
                    [DynamicLegend.overrideCategoryValue] at hg
                · rw [hg2] at hg
                  cases scl with
                  | gradient g1 =>
                    have hid : DynamicLegend.overrideCategoryValue
                        (some (.gradient g1)) "shape" "line"
                        = some (.gradient g1) := rfl
                    rw [hid] at hg
                    simp only [Option.toList_some, List.mem_singleton,
                      Legend.gradient.injEq] at hg
                    subst hg
                    rw [hg2] at hsc
                    exact parseStyle_true_gradient_labels _ _ _ _ _ _ _ hsc
                  | category c1 =>
                    obtain ⟨c2, hc2⟩ :=
                      overrideCategoryValue_category c1 "shape" "line"
                    rw [hc2] at hg
                    simp at hg
              · -- from the strokeWidth parse, through the override chain
                have hswg : swl = some (.gradient g) := by
                  simp only [Option.mem_toList, Option.mem_def] at hg
                  split at hg <;>
                    first
                      | exact overrideCategoryValue_gradient_inv _ _ _ _
                          (overrideCategoryValue_gradient_inv _ _ _ _ hg)
                      | exact overrideCategoryValue_gradient_inv _ _ _ _ hg
                rw [hswg] at hsw
                exact absurd hsw (parseStyle_scale_ne_gradient _ _ _ _ _ _ _)
    · -- heat-map layer
      cases hcp : DynamicLegend.parseStyle host ctl lyr dlt "color"
          .color true with
      | error e => rw [hcp] at hp; simp [Except.bind] at hp
      | ok copt =>
        rw [hcp] at hp
        simp only [Except.bind, Except.ok.injEq] at hp
        subst hp
        cases copt with
        | none => simp at hg
        | some l =>
          cases l with
          | gradient g1 =>
            simp only [Option.toList_some, List.mem_singleton,
              Legend.gradient.injEq] at hg
            subst hg
            exact parseStyle_true_gradient_labels _ _ _ _ _ _ _ hcp
          | category c1 => simp at hg

/-- The options of the heat-map fixture. -/
def heatLayerOptions : LayerOptions where
  visible := true
  color := some (.arr closeStopsGradient)

/-- A heat-map layer whose color is the close-stops interpolation. -/
def heatLayer : Layer :=
  { kind := .heatMap, id := "h1", options := heatLayerOptions }

/-- The gradient the interpolation parser produces for the heat-map fixture
before the label override. -/
def heatRawGradient : GradientLegend :=
  { stops := [{ offset := 0, color := "red", label := some (.num 0) },
      { offset := 1 / 100, color := "green", label := some (.num (1 / 100)) },
      { offset := 1, color := "blue", label := some (.num 1) }]
    subtitle := some "h1"
    footer := some "" }

/-- The gradient the router finally emits for the heat-map fixture: only the
low and high labels remain. -/
def heatGradient : GradientLegend :=
  { stops := [{ offset := 0, color := "red", label := some (.str "low") },
      { offset := 1 / 100, color := "green", label := none },
      { offset := 1, color := "blue", label := some (.str "high") }]
    subtitle := some "h1"
    footer := some "" }

/-- Witness for C10 at the heat-map fixture: the emitted gradient is labelled
low, nothing, high. -/
theorem C10_line_heatmap_gradient_labels_witness :
    (DynamicLegend.parse simpleHost emptyControl emptySettings
        (some heatLayer) = .ok [.gradient heatGradient]) ∧
    (2 ≤ heatGradient.stops.length ∧
      heatGradient.stops.map (fun s => s.label)
        = some (.str "low")
          :: (List.replicate (heatGradient.stops.length - 2) none
            ++ [some (.str "high")])) := by
  have hd : ((1 : ℚ) - 0 = 0) = False := by norm_num
  have hf : DynamicLegend.getInterpFn simpleHost (.arr [.str "linear"]) 0 1
      = some fun x => (x - 0) / (1 - 0) := by
    simp [DynamicLegend.getInterpFn, hd, jsIndex]
  have hpi : DynamicLegend.parseInterpolation simpleHost heatLayer
      emptySettings .color closeStopsGradient
      = .ok (some (.gradient heatRawGradient)) := by
    simp [DynamicLegend.parseInterpolation, DynamicLegend.getSubtitle,
      DynamicLegend.getFooter, closeStopsGradient, pairList, jsGet, jsIndex,
      Val.toNumD, jsOrOpt, strOr, getX, emptySettings, heatLayer,
      heatRawGradient]
    rw [hf]
    norm_num [DynamicLegend.gradientLoop, Val.toNumD]
  have hps : DynamicLegend.parseStyle simpleHost emptyControl heatLayer
      emptySettings "color" .color true
      = .ok (some (.gradient heatGradient)) := by
    have hstep : DynamicLegend.parseStyle simpleHost emptyControl heatLayer
        emptySettings "color" .color true
        = (DynamicLegend.parseInterpolation simpleHost heatLayer
            emptySettings .color closeStopsGradient).map fun lOpt =>
            lOpt.map fun l =>
              DynamicLegend.finalizeLegend heatLayer.options emptySettings
                (DynamicLegend.applyDefaults emptySettings true l) := rfl
    rw [hstep, hpi]
    simp [Except.map, DynamicLegend.applyDefaults,
      DynamicLegend.overrideGradientLabels, DynamicLegend.modifyAt,
      DynamicLegend.finalizeLegend, emptySettings, heatRawGradient,
      heatGradient]
    exact ⟨rfl, rfl⟩
  have h : DynamicLegend.parse simpleHost emptyControl emptySettings
      (some heatLayer) = .ok [.gradient heatGradient] := by
    have hk2 : heatLayer.kind = LayerKind.heatMap := rfl
    have hvis : heatLayer.options.visible = true := rfl
    simp [DynamicLegend.parse, hvis, hk2, hps, Except.bind, bind,
      Except.instMonad]
  exact ⟨h, C10_line_heatmap_gradient_labels simpleHost emptyControl
    emptySettings heatLayer [.gradient heatGradient] heatGradient
    (Or.inr rfl) h (by simp)⟩

end LayerLegend
